import Mathlib

/-!
Verification of the resilience / data-shaping core of the AI-Job-Recommender
repository: the inference orchestrator (`src/helper.py`), the embedding
pipeline and similarity retrieval client (`backend/src/resume_processor.py`),
and the skill-gap analysis engine (`backend/src/skill_analyzer.py`).

The Python code is shallowly embedded: pure functions become Lean functions
on `List Char` / `Int` / `ℚ`; calls to external services (LLM providers, the
embedding model, the vector index, the regex engine) are universally
quantified oracle parameters; Python exceptions become explicit `Except`
values.  Machine floats are idealised as rationals.
-/

/- ===================== Python string primitives ===================== -/

/-- ASCII lowercase of one character (model of Python `str.lower` on the
ASCII fragment; every string the code lowercases and then inspects is an
ASCII literal). -/
def ascLower (c : Char) : Char :=
  if 'A' ≤ c ∧ c ≤ 'Z' then Char.ofNat (c.toNat + 32) else c

/-- Lowercase a character list. -/
def lowerL (l : List Char) : List Char := l.map ascLower

/-- Characters removed by Python `str.strip()` with no argument. -/
def pyWs (c : Char) : Bool :=
  c = ' ' ∨ c = '\t' ∨ c = '\n' ∨ c = '\r' ∨ c = '\x0b' ∨ c = '\x0c'

/-- Model of Python `str.strip()` on a character list. -/
def pyStripL (l : List Char) : List Char :=
  ((l.dropWhile pyWs).reverse.dropWhile pyWs).reverse

/-- Model of Python `str.strip()` on a string. -/
def pyStrip (s : String) : String := String.mk (pyStripL s.toList)

/-- Does `pat` occur at the head of `l`? -/
def prefixAt : List Char → List Char → Bool
  | [], _ => true
  | _ :: _, [] => false
  | p :: ps, c :: cs => p = c && prefixAt ps cs

/-- Model of Python substring containment `pat in l` on character lists. -/
def containsL (pat : List Char) : List Char → Bool
  | [] => prefixAt pat []
  | c :: cs => prefixAt pat (c :: cs) || containsL pat cs

/-- Model of Python `pat in s` on strings. -/
def strHas (s pat : String) : Bool := containsL pat.toList s.toList

/- ===================== Exceptions and classification ===================== -/

/-- Model of a Python exception as observed by `_classify_error`
(`src/helper.py`): a status-code-like integer attribute, if any of the
attributes `status_code` / `status` / `http_status` / `code` carries one,
and the message `str(exc)`. -/
structure PyExc where
  status : Option Int
  msg : String
deriving DecidableEq

/-- The three error classes of `_classify_error` in `src/helper.py`. -/
inductive ErrClass where
  | fatal_auth
  | rate_limit
  | retryable
deriving DecidableEq

/-- Truthiness-guarded 5xx test of `_classify_error`: Python
`status and 500 <= status < 600` (a zero status is falsy and short-circuits). -/
def is5xx (st : Option Int) : Bool :=
  match st with
  | some s => !(s == 0) && (500 ≤ s) && (s < 600)
  | none => false

/-- Embedding of `_classify_error` (`src/helper.py` lines 77-100): cascade of
status-code and lowercased-message heuristics. -/
def classify_error (e : PyExc) : ErrClass :=
  let msg := String.mk (lowerL e.msg.toList)
  if (e.status == some 401 || e.status == some 403) ||
      strHas msg "unauthorized" || strHas msg "invalid" || strHas msg "expired" then
    .fatal_auth
  else if e.status == some 429 || strHas msg "rate limit" || strHas msg "quota" ||
      strHas msg "quota exceeded" then
    .rate_limit
  else if is5xx e.status ||
      strHas msg "timeout" || strHas msg "connection" || strHas msg "failed to connect" then
    .retryable
  else
    .retryable

/-- Classification exactly as the specification words it: 401/403 or
unauthorized/invalid/expired in the message give FatalAuth; 429 or rate
limit/quota give RateLimited; everything else is Retryable (the spec lists
timeout/connection/5xx explicitly and makes Retryable the default for
unknown errors, which collapses to one case). -/
def classify_spec (e : PyExc) : ErrClass :=
  let msg := String.mk (lowerL e.msg.toList)
  if (e.status == some 401 || e.status == some 403) ||
      strHas msg "unauthorized" || strHas msg "invalid" || strHas msg "expired" then
    .fatal_auth
  else if e.status == some 429 || strHas msg "rate limit" || strHas msg "quota" ||
      strHas msg "quota exceeded" then
    .rate_limit
  else
    .retryable

/- ===================== Inference orchestrator (LLMManager.ask) ===================== -/

/-- Error value observable from `LLMManager.ask`.  The code
(`src/helper.py` line 226) re-raises the last caught exception object
itself.  Modelled from the spec: the spec additionally posits an
`AllProvidersFailedError` class wrapping the last error; no such class
exists anywhere in the repository, so the constructor `allProvidersFailed`
exists here only so that the spec's statement can be expressed and compared
against the code's behavior. -/
inductive Raised where
  | plainExc (e : PyExc)
  | allProvidersFailed (e : PyExc)
deriving DecidableEq

/-- Behavior of one provider for a single `ask` request.  `create` is the
outcome of `provider.create_llm()` (`some e` models it raising `e`);
`invokeAt n` is the outcome of the n-th invocation of this provider within
the request (n starts at 1), already passed through
`_extract_text_from_llm_response` on success, i.e. the oracle returns the
normalized text.  Providers are external services, so their behavior is an
oracle parameter. -/
structure ProviderB where
  create : Option PyExc
  invokeAt : Nat → Except PyExc String

/-- Inner `while True` retry loop of `LLMManager.ask` (`src/helper.py`
lines 199-224) for one provider, starting at attempt number `attempt` with
`remaining = per_provider_retries + 1 - attempt` retryable attempts still
allowed (so `remaining = 0` exactly when `attempt > per_provider_retries`).
Returns the final outcome, the number of invocations actually made, and the
list of backoff sleeps `backoff * 2 ^ (attempt - 1)` performed. -/
def provider_loop (invokeAt : Nat → Except PyExc String) (backoff : ℚ) :
    Nat → Nat → Except PyExc String × Nat × List ℚ
  | attempt, remaining =>
    match invokeAt attempt with
    | .ok t => (.ok t, attempt, [])
    | .error e =>
      match classify_error e with
      | .fatal_auth => (.error e, attempt, [])
      | .rate_limit => (.error e, attempt, [])
      | .retryable =>
        match remaining with
        | 0 => (.error e, attempt, [])
        | r + 1 =>
          let out := provider_loop invokeAt backoff (attempt + 1) r
          (out.1, out.2.1, backoff * 2 ^ (attempt - 1) :: out.2.2)

/-- One provider processed by `ask`: initialize the client, then run the
retry loop with attempt counter starting at 1. -/
def run_provider (p : ProviderB) (retries : Nat) (backoff : ℚ) :
    Except PyExc String × Nat × List ℚ :=
  provider_loop p.invokeAt backoff 1 retries

/-- Outer provider loop of `LLMManager.ask` (`src/helper.py` lines 185-226),
threading `last_exc`.  Returns the per-provider invocation counts (0 for a
provider whose client failed to initialize or that was never reached) and
the overall outcome; on exhaustion the code executes `raise last_exc`, which
raises the last caught exception object itself (`.plainExc`), or a
`TypeError`-like failure (`.error none`) when `last_exc` is still `None`
(empty provider list). -/
def ask_go (retries : Nat) (backoff : ℚ) :
    List ProviderB → Option PyExc → List Nat × Except (Option Raised) String
  | [], last => ([], .error (last.map .plainExc))
  | p :: ps, _last =>
    match p.create with
    | some e =>
      let out := ask_go retries backoff ps (some e)
      (0 :: out.1, out.2)
    | none =>
      match run_provider p retries backoff with
      | (.ok t, n, _) => (n :: ps.map (fun _ => 0), .ok t)
      | (.error e, n, _) =>
        let out := ask_go retries backoff ps (some e)
        (n :: out.1, out.2)

/-- `LLMManager.ask`: result only.  Python defaults are
`per_provider_retries = 2`, `backoff_factor = 1.0`. -/
def ask (providers : List ProviderB) (retries : Nat) (backoff : ℚ) :
    Except (Option Raised) String :=
  (ask_go retries backoff providers none).2

/-- `LLMManager.ask`: number of invocations issued to each provider. -/
def ask_counts (providers : List ProviderB) (retries : Nat) (backoff : ℚ) :
    List Nat :=
  (ask_go retries backoff providers none).1

/-- Final outcome of a single provider within one request: its client
initialization error, or the outcome of its retry loop. -/
def provider_outcome (p : ProviderB) (retries : Nat) (backoff : ℚ) :
    Except PyExc String :=
  match p.create with
  | some e => .error e
  | none => (run_provider p retries backoff).1

/-- Text of the first provider whose call succeeds, if any (spec reading of
"returns a text result as soon as some provider call succeeds"). -/
def first_success (retries : Nat) (backoff : ℚ) : List ProviderB → Option String
  | [] => none
  | p :: ps =>
    match provider_outcome p retries backoff with
    | .ok t => some t
    | .error _ => first_success retries backoff ps

/-- Error of the last provider in the list, when its outcome is an error
(this is the "last observed error" whenever every provider fails, since
`last_exc` is overwritten in provider order). -/
def last_provider_error (retries : Nat) (backoff : ℚ) : List ProviderB → Option PyExc
  | [] => none
  | [p] =>
    match provider_outcome p retries backoff with
    | .ok _ => none
    | .error e => some e
  | _ :: p :: ps => last_provider_error retries backoff (p :: ps)

/-- Spec-side characterization of `ask` after amending C1 to what the code
does: first success wins; otherwise the last observed error is re-raised
as-is (not wrapped). -/
def ask_spec (providers : List ProviderB) (retries : Nat) (backoff : ℚ) :
    Except (Option Raised) String :=
  match first_success retries backoff providers with
  | some t => .ok t
  | none => .error ((last_provider_error retries backoff providers).map .plainExc)

/-- Is the raised error the spec's `AllProvidersFailedError` wrapper? -/
def raised_is_wrapped : Except (Option Raised) String → Bool
  | .error (some (.allProvidersFailed _)) => true
  | _ => false

/- ===================== Embedding pipeline (_embed_text) ===================== -/

/-- Character-level slicing pass: models the comprehension
`[text[i:i+chunk_size] for i in range(0, len(text), chunk_size)]`
(`backend/src/resume_processor.py` line 215) in one structural pass.
`acc` holds the current slice reversed and `n` is the number of characters
it can still take.  (Python raises ValueError for `chunk_size = 0`; the
model is only used, and only claimed correct, for a positive size.) -/
def slices_go (k : Nat) : Nat → List Char → List Char → List (List Char)
  | _, acc, [] => if acc.isEmpty then [] else [acc.reverse]
  | 0, acc, c :: cs => acc.reverse :: slices_go k (k - 1) [c] cs
  | n + 1, acc, c :: cs => slices_go k n (c :: acc) cs

/-- All consecutive slices of length `k` (last one possibly shorter). -/
def py_slices (k : Nat) (l : List Char) : List (List Char) :=
  slices_go k k [] l

/-- Chunk list of `_embed_text`: consecutive slices of the (already
stripped) text, dropping slices that are empty after trimming
(the `if text[i:i+chunk_size].strip()` guard). -/
def embed_chunks (k : Nat) (text : List Char) : List (List Char) :=
  (py_slices k text).filter (fun c => !(pyStripL c).isEmpty)

/-- Element-wise sum of a list of vectors (how `np.mean(np.stack(...), axis=0)`
combines the chunk embeddings before dividing). -/
def sum_vecs : List (List ℚ) → List ℚ
  | [] => []
  | [v] => v
  | v :: rest => List.zipWith (fun a b => a + b) v (sum_vecs rest)

/-- Element-wise arithmetic mean across vectors: model of
`np.mean(np.stack(chunk_embs, axis=0), axis=0)` for same-dimension vectors. -/
def mean_vecs (vs : List (List ℚ)) : List ℚ :=
  (sum_vecs vs).map (fun x => x / (vs.length : ℚ))

/-- Embedding of `ResumeProcessor._embed_text`
(`backend/src/resume_processor.py` lines 204-226).  `model` is the external
embedding service (`embed_query`, including its per-chunk timeout retry),
an oracle parameter.  Empty/whitespace-only input short-circuits to `[]`;
one chunk returns its embedding unchanged; several chunks are averaged
element-wise.  (The catch-all `mean_vecs` arm is also taken for zero chunks,
which cannot happen for nonempty stripped text.) -/
def embed_text (model : String → List ℚ) (k : Nat) (s : String) : List ℚ :=
  let text := pyStripL s.toList
  if text.isEmpty then []
  else
    let embs := (embed_chunks k text).map (fun c => model (String.mk c))
    match embs with
    | [e] => e
    | es => mean_vecs es

/-- The texts actually sent to the embedding service by `_embed_text`. -/
def embed_calls (k : Nat) (s : String) : List String :=
  let text := pyStripL s.toList
  if text.isEmpty then [] else (embed_chunks k text).map String.mk

/-- Source text used by the C9 counterexample: equal to its own strip, with
a whitespace-only middle slice at chunk size 2 (the same shape arises at the
default chunk size 1200 with x^1200 ++ " "^1200 ++ "y"). -/
def c9text : List Char := ['a', 'a', ' ', ' ', 'b']

/-- Concrete embedding-service behavior used by witnesses. -/
def embedModelW : String → List ℚ := fun t => [(t.toList.length : ℚ), 7]

/- ===================== Similarity retrieval client (find_similar_jobs) ===================== -/

/-- One raw match returned by the vector index query
(`backend/src/resume_processor.py` lines 385-394): identifier, relevance
score, alternative distance field, and a string metadata map.  The defensive
dict/attribute extraction collapses to plain fields here. -/
structure MatchR where
  id : Option String
  score : Option ℚ
  distance : Option ℚ
  metadata : List (String × String)
deriving DecidableEq

/-- Python `dict.get` on a string-valued metadata map. -/
def dget (d : List (String × String)) (k : String) : Option String :=
  (d.find? (fun kv => kv.1 == k)).map (fun kv => kv.2)

/-- Python `a or b or ... or ""` over optional strings: first present,
non-empty (truthy) value, else the empty string. -/
def firstTruthy : List (Option String) → String
  | [] => ""
  | none :: rest => firstTruthy rest
  | some s :: rest => if s = "" then firstTruthy rest else s

/-- Python `a or b` over optional numbers: `0` is falsy and falls through. -/
def py_or_q (a b : Option ℚ) : Option ℚ :=
  match a with
  | some q => if q = 0 then b else some q
  | none => b

/-- The normalized per-match record built by `find_similar_jobs`
(lines 402-416). -/
structure JobInfo where
  title : String
  company : String
  location : String
  apply_link : String
  description : String
  similarity_score : Option ℚ
  job_id : Option String
deriving DecidableEq

/-- Metadata normalization of `find_similar_jobs`: reconcile historical key
spellings with the code's precedence order, falling back to "". -/
def job_info_of (m : MatchR) : JobInfo :=
  { title := firstTruthy [dget m.metadata "title", dget m.metadata "job_title"]
    company := firstTruthy [dget m.metadata "company", dget m.metadata "company_name"]
    location := firstTruthy [dget m.metadata "location"]
    apply_link := firstTruthy
      [dget m.metadata "apply_link", dget m.metadata "apply_url", dget m.metadata "share_link"]
    description := (dget m.metadata "description").getD ""
    similarity_score := py_or_q m.score m.distance
    job_id := m.id }

/-- Dedupe-and-truncate loop of `find_similar_jobs` (lines 383-422): skip a
match whose id was already seen, otherwise append its normalized record, and
break as soon as the accumulated count (tracked here as `cnt`) reaches
`top_k` — the length test runs after the append, which matters for
`top_k ≤ 0`. -/
def fs_go (topK : Int) : List MatchR → List (Option String) → Int → List JobInfo
  | [], _, _ => []
  | m :: ms, seen, cnt =>
    if m.id ∈ seen then fs_go topK ms seen cnt
    else
      let ji := job_info_of m
      if topK ≤ cnt + 1 then [ji]
      else ji :: fs_go topK ms (m.id :: seen) (cnt + 1)

/-- Embedding of the result-shaping part of
`ResumeProcessor.find_similar_jobs` (lines 339-425): the raw ranked match
list returned by the index query is an oracle parameter (the index is an
external service), and `top_k` is the caller's Python int. -/
def find_similar_jobs (ms : List MatchR) (topK : Int) : List JobInfo :=
  fs_go topK ms [] 0

/-- Number of candidates `find_similar_jobs` requests from the index
(line 371): `max(10, top_k * 2)` — deliberate oversampling. -/
def requested_top_k (topK : Int) : Int := max 10 (topK * 2)

/-- Spec-side description: first occurrence of each match id, in original
order, given an already-seen set. -/
def dedup_first (seen : List (Option String)) : List MatchR → List MatchR
  | [] => []
  | m :: ms =>
    if m.id ∈ seen then dedup_first seen ms
    else m :: dedup_first (m.id :: seen) ms

/-- Concrete raw matches for the C5 example: five matches, one duplicate id. -/
def c5matches : List MatchR :=
  [⟨some "a", some 9, none, [("title", "job a")]⟩,
   ⟨some "b", some 8, none, [("title", "job b")]⟩,
   ⟨some "a", some 7, none, [("title", "job a bis")]⟩,
   ⟨some "c", some 6, none, [("title", "job c")]⟩,
   ⟨some "d", some 5, none, [("title", "job d")]⟩]

/- ===================== JSON values ===================== -/

/-- JSON value as produced by Python `json.loads`: null, booleans, ints,
floats (idealised as rationals), strings, arrays, and objects as key-value
field lists with unique keys (Python dicts). -/
inductive Json where
  | null
  | bool (b : Bool)
  | int (n : Int)
  | num (q : ℚ)
  | str (s : String)
  | arr (xs : List Json)
  | obj (fields : List (String × Json))

mutual
def jsonDecEq : (a b : Json) → Decidable (a = b)
  | .null, .null => isTrue rfl
  | .bool x, .bool y =>
    match decEq x y with
    | isTrue h => isTrue (by rw [h])
    | isFalse h => isFalse (fun hh => h (Json.bool.inj hh))
  | .int x, .int y =>
    match decEq x y with
    | isTrue h => isTrue (by rw [h])
    | isFalse h => isFalse (fun hh => h (Json.int.inj hh))
  | .num x, .num y =>
    match decEq x y with
    | isTrue h => isTrue (by rw [h])
    | isFalse h => isFalse (fun hh => h (Json.num.inj hh))
  | .str x, .str y =>
    match decEq x y with
    | isTrue h => isTrue (by rw [h])
    | isFalse h => isFalse (fun hh => h (Json.str.inj hh))
  | .arr xs, .arr ys =>
    match jsonDecEqList xs ys with
    | isTrue h => isTrue (by rw [h])
    | isFalse h => isFalse (fun hh => h (Json.arr.inj hh))
  | .obj fs, .obj gs =>
    match jsonDecEqFields fs gs with
    | isTrue h => isTrue (by rw [h])
    | isFalse h => isFalse (fun hh => h (Json.obj.inj hh))
  | .null, .bool _ => isFalse (fun h => Json.noConfusion h)
  | .null, .int _ => isFalse (fun h => Json.noConfusion h)
  | .null, .num _ => isFalse (fun h => Json.noConfusion h)
  | .null, .str _ => isFalse (fun h => Json.noConfusion h)
  | .null, .arr _ => isFalse (fun h => Json.noConfusion h)
  | .null, .obj _ => isFalse (fun h => Json.noConfusion h)
  | .bool _, .null => isFalse (fun h => Json.noConfusion h)
  | .bool _, .int _ => isFalse (fun h => Json.noConfusion h)
  | .bool _, .num _ => isFalse (fun h => Json.noConfusion h)
  | .bool _, .str _ => isFalse (fun h => Json.noConfusion h)
  | .bool _, .arr _ => isFalse (fun h => Json.noConfusion h)
  | .bool _, .obj _ => isFalse (fun h => Json.noConfusion h)
  | .int _, .null => isFalse (fun h => Json.noConfusion h)
  | .int _, .bool _ => isFalse (fun h => Json.noConfusion h)
  | .int _, .num _ => isFalse (fun h => Json.noConfusion h)
  | .int _, .str _ => isFalse (fun h => Json.noConfusion h)
  | .int _, .arr _ => isFalse (fun h => Json.noConfusion h)
  | .int _, .obj _ => isFalse (fun h => Json.noConfusion h)
  | .num _, .null => isFalse (fun h => Json.noConfusion h)
  | .num _, .bool _ => isFalse (fun h => Json.noConfusion h)
  | .num _, .int _ => isFalse (fun h => Json.noConfusion h)
  | .num _, .str _ => isFalse (fun h => Json.noConfusion h)
  | .num _, .arr _ => isFalse (fun h => Json.noConfusion h)
  | .num _, .obj _ => isFalse (fun h => Json.noConfusion h)
  | .str _, .null => isFalse (fun h => Json.noConfusion h)
  | .str _, .bool _ => isFalse (fun h => Json.noConfusion h)
  | .str _, .int _ => isFalse (fun h => Json.noConfusion h)
  | .str _, .num _ => isFalse (fun h => Json.noConfusion h)
  | .str _, .arr _ => isFalse (fun h => Json.noConfusion h)
  | .str _, .obj _ => isFalse (fun h => Json.noConfusion h)
  | .arr _, .null => isFalse (fun h => Json.noConfusion h)
  | .arr _, .bool _ => isFalse (fun h => Json.noConfusion h)
  | .arr _, .int _ => isFalse (fun h => Json.noConfusion h)
  | .arr _, .num _ => isFalse (fun h => Json.noConfusion h)
  | .arr _, .str _ => isFalse (fun h => Json.noConfusion h)
  | .arr _, .obj _ => isFalse (fun h => Json.noConfusion h)
  | .obj _, .null => isFalse (fun h => Json.noConfusion h)
  | .obj _, .bool _ => isFalse (fun h => Json.noConfusion h)
  | .obj _, .int _ => isFalse (fun h => Json.noConfusion h)
  | .obj _, .num _ => isFalse (fun h => Json.noConfusion h)
  | .obj _, .str _ => isFalse (fun h => Json.noConfusion h)
  | .obj _, .arr _ => isFalse (fun h => Json.noConfusion h)
def jsonDecEqList : (a b : List Json) → Decidable (a = b)
  | [], [] => isTrue rfl
  | x :: xs, y :: ys =>
    match jsonDecEq x y, jsonDecEqList xs ys with
    | isTrue h1, isTrue h2 => isTrue (by rw [h1, h2])
    | isFalse h1, _ => isFalse (fun hh => h1 (List.cons.inj hh).1)
    | _, isFalse h2 => isFalse (fun hh => h2 (List.cons.inj hh).2)
  | [], _ :: _ => isFalse (fun h => List.noConfusion h)
  | _ :: _, [] => isFalse (fun h => List.noConfusion h)
def jsonDecEqFields : (a b : List (String × Json)) → Decidable (a = b)
  | [], [] => isTrue rfl
  | (k, v) :: fs, (k2, v2) :: gs =>
    match decEq k k2, jsonDecEq v v2, jsonDecEqFields fs gs with
    | isTrue h1, isTrue h2, isTrue h3 => isTrue (by rw [h1, h2, h3])
    | isFalse h1, _, _ =>
      isFalse (fun hh => h1 (congrArg Prod.fst (List.cons.inj hh).1))
    | _, isFalse h2, _ =>
      isFalse (fun hh => h2 (congrArg Prod.snd (List.cons.inj hh).1))
    | _, _, isFalse h3 => isFalse (fun hh => h3 (List.cons.inj hh).2)
  | [], _ :: _ => isFalse (fun h => List.noConfusion h)
  | _ :: _, [] => isFalse (fun h => List.noConfusion h)
end

instance : DecidableEq Json := jsonDecEq

/-- Field list of a JSON object (a Python dict with string keys). -/
abbrev JFields := List (String × Json)

/-- Python `dict[key]` lookup on an object field list. -/
def jget (fs : JFields) (k : String) : Option Json :=
  (fs.find? (fun kv => kv.1 == k)).map (fun kv => kv.2)

/-- Python `dict.get(key, default)`. -/
def jgetD (fs : JFields) (k : String) (d : Json) : Json :=
  (jget fs k).getD d

/-- Python `dict[key] = value`: replace the value in place if the key
exists, else append the new binding. -/
def jsetF : JFields → String → Json → JFields
  | [], k, v => [(k, v)]
  | (k2, v2) :: fs, k, v =>
    if k2 == k then (k, v) :: fs else (k2, v2) :: jsetF fs k v

/- ===================== Structured response extractor ===================== -/

/-- The single-quote character (spelled via its code point to keep string
literals clean). -/
def quoteC : Char := Char.ofNat 39

/-- The backslash character. -/
def backslashC : Char := '\\'

/-- The opening-brace character. -/
def lbraceC : Char := Char.ofNat 123

/-- The closing-brace character. -/
def rbraceC : Char := Char.ofNat 125

/-- Scan of `_extract_json_from_response` (lines 193-201): collect
characters until a single quote not preceded by a backslash; `prev` is the
previously inspected character (initially the opening quote of the
envelope). -/
def scan_quote (prev : Char) : List Char → List Char
  | [] => []
  | c :: cs =>
    if c == quoteC && !(prev == backslashC) then []
    else c :: scan_quote c cs

/-- Envelope stripping of `_extract_json_from_response` (lines 189-201): if
the text starts with the provider envelope marker (the literal `content=`
followed by a single quote), keep the quoted payload. -/
def strip_envelope (l : List Char) : List Char :=
  if prefixAt ("content=".toList ++ [quoteC]) l then
    scan_quote quoteC (l.drop 9)
  else l

/-- Effect of the first wrapper-removal regex (line 205,
anchored `[^(lbrace)]* ( brace .* brace ) [^(rbrace)]*` with DOTALL): when the
text has an opening brace followed later by a closing brace, keep exactly
the span from the first opening brace to the last closing brace; otherwise
leave the text unchanged (the code-fence patterns can then never match
either, since they also require such a span). -/
def brace_slice (l : List Char) : List Char :=
  let s1 := l.dropWhile (fun c => !(c == lbraceC))
  let s2 := (s1.reverse.dropWhile (fun c => !(c == rbraceC))).reverse
  if s2.isEmpty then l else s2

/-- Python `str.replace` with a two-character pattern and one-character
replacement: leftmost, non-overlapping. -/
def repl2 (a b c : Char) : List Char → List Char
  | [] => []
  | [x] => [x]
  | x :: y :: rest =>
    if x == a && y == b then c :: repl2 a b c rest
    else x :: repl2 a b c (y :: rest)

/-- Embedding of `SkillGapAnalyzer._extract_json_from_response`
(`backend/src/skill_analyzer.py` lines 184-225): strip the provider
envelope, slice to the outermost brace span, strip whitespace, and undo the
escape sequences for quote, double quote, newline and tab, in that order. -/
def extract_json_from_response (raw : String) : String :=
  let s1 := strip_envelope raw.toList
  let s2 := brace_slice s1
  let s3 := pyStripL s2
  let s4 := repl2 backslashC quoteC quoteC s3
  let s5 := repl2 backslashC '"' '"' s4
  let s6 := repl2 backslashC 'n' '\n' s5
  let s7 := repl2 backslashC 't' '\t' s6
  String.mk s7

/- ===================== Model of json.loads ===================== -/

/-- ASCII digit test. -/
def isDigitC (c : Char) : Bool := '0' ≤ c && c ≤ '9'

/-- Natural number denoted by a digit run. -/
def digitsToNat (l : List Char) : Nat :=
  l.foldl (fun n c => n * 10 + (c.toNat - 48)) 0

/-- JSON insignificant whitespace. -/
def skipWs (l : List Char) : List Char :=
  l.dropWhile (fun c => c == ' ' || c == '\t' || c == '\n' || c == '\r')

/-- JSON string body after the opening double quote: content and remainder
after the closing quote, handling the common escapes (unicode escapes are
out of the modelled fragment and fail the parse). -/
def pstr_go : List Char → Option (List Char × List Char)
  | [] => none
  | c :: cs =>
    if c == '"' then some ([], cs)
    else if c == backslashC then
      match cs with
      | [] => none
      | e :: cs2 =>
        let mc : Option Char :=
          if e == '"' then some '"'
          else if e == backslashC then some backslashC
          else if e == '/' then some '/'
          else if e == 'n' then some '\n'
          else if e == 't' then some '\t'
          else if e == 'r' then some '\r'
          else none
        match mc with
        | none => none
        | some ch =>
          match pstr_go cs2 with
          | none => none
          | some (content, rest) => some (ch :: content, rest)
    else
      match pstr_go cs with
      | none => none
      | some (content, rest) => some (c :: content, rest)

/-- JSON digit run with the leading-zero rule: a lone `0`, or a nonzero
digit followed by digits. -/
def pint_digits : List Char → Option (List Char × List Char)
  | [] => none
  | c :: cs =>
    if c == '0' then some ([c], cs)
    else if isDigitC c then some (c :: cs.takeWhile isDigitC, cs.dropWhile isDigitC)
    else none

/-- JSON number: optional minus, integer part, optional fraction part
(exponents are out of the modelled fragment). -/
def pnumber (l : List Char) : Option (Json × List Char) :=
  let negl : Bool × List Char :=
    match l with
    | c :: cs => if c == '-' then (true, cs) else (false, l)
    | [] => (false, l)
  match pint_digits negl.2 with
  | none => none
  | some (ds, rest) =>
    match rest with
    | '.' :: r2 =>
      let fs := r2.takeWhile isDigitC
      if fs.isEmpty then none
      else
        let r3 := r2.dropWhile isDigitC
        if r3.headD ' ' == 'e' || r3.headD ' ' == 'E' then none
        else
          let q : ℚ := (digitsToNat ds : ℚ) + (digitsToNat fs : ℚ) / (10 : ℚ) ^ fs.length
          some (.num (if negl.1 then -q else q), r3)
    | _ =>
      if rest.headD ' ' == 'e' || rest.headD ' ' == 'E' then none
      else some (.int (if negl.1 then -(digitsToNat ds : Int) else (digitsToNat ds : Int)), rest)

mutual
/-- Model of Python `json.loads` (recursive descent, fuel-bounded by the
input length): one JSON value and the remainder. -/
def pval : Nat → List Char → Option (Json × List Char)
  | 0, _ => none
  | fuel + 1, l0 =>
    let l := skipWs l0
    match l with
    | [] => none
    | c :: cs =>
      if c == '"' then
        match pstr_go cs with
        | none => none
        | some (content, rest) => some (.str (String.mk content), rest)
      else if c == lbraceC then pobj fuel cs
      else if c == '[' then parr fuel cs
      else if prefixAt "null".toList l then some (.null, l.drop 4)
      else if prefixAt "true".toList l then some (.bool true, l.drop 4)
      else if prefixAt "false".toList l then some (.bool false, l.drop 5)
      else pnumber l

/-- Array items after the opening bracket. -/
def parr : Nat → List Char → Option (Json × List Char)
  | 0, _ => none
  | fuel + 1, l =>
    let l1 := skipWs l
    match l1 with
    | c :: cs =>
      if c == ']' then some (.arr [], cs)
      else
        match pval fuel l1 with
        | none => none
        | some (v, rest) =>
          match pitems fuel [v] rest with
          | none => none
          | some (vs, rest2) => some (.arr vs, rest2)
    | [] => none

/-- Remaining array items (accumulated in reverse). -/
def pitems : Nat → List Json → List Char → Option (List Json × List Char)
  | 0, _, _ => none
  | fuel + 1, acc, l =>
    match skipWs l with
    | c :: cs =>
      if c == ',' then
        match pval fuel cs with
        | none => none
        | some (v, rest) => pitems fuel (v :: acc) rest
      else if c == ']' then some (acc.reverse, cs)
      else none
    | [] => none

/-- Object members after the opening brace; duplicate keys keep the last
binding, as Python dicts do. -/
def pobj : Nat → List Char → Option (Json × List Char)
  | 0, _ => none
  | fuel + 1, l =>
    let l1 := skipWs l
    match l1 with
    | c :: cs =>
      if c == rbraceC then some (.obj [], cs)
      else
        match pmember fuel l1 with
        | none => none
        | some (kv, rest) =>
          match pmembers fuel [kv] rest with
          | none => none
          | some (fs, rest2) =>
            some (.obj (fs.foldl (fun m kv2 => jsetF m kv2.1 kv2.2) []), rest2)
    | [] => none

/-- One `"key": value` member. -/
def pmember : Nat → List Char → Option ((String × Json) × List Char)
  | 0, _ => none
  | fuel + 1, l =>
    match skipWs l with
    | c :: cs =>
      if c == '"' then
        match pstr_go cs with
        | none => none
        | some (k, rest) =>
          match skipWs rest with
          | c2 :: cs2 =>
            if c2 == ':' then
              match pval fuel cs2 with
              | none => none
              | some (v, r2) => some ((String.mk k, v), r2)
            else none
          | [] => none
      else none
    | [] => none

/-- Remaining object members (accumulated in reverse). -/
def pmembers : Nat → JFields → List Char → Option (JFields × List Char)
  | 0, _, _ => none
  | fuel + 1, acc, l =>
    match skipWs l with
    | c :: cs =>
      if c == ',' then
        match pmember fuel cs with
        | none => none
        | some (kv, rest) => pmembers fuel (kv :: acc) rest
      else if c == rbraceC then some (acc.reverse, cs)
      else none
    | [] => none
end

/-- Model of Python `json.loads(s)`: a full parse of the whole input, or
`none` for `json.JSONDecodeError`. -/
def jparse (s : String) : Option Json :=
  match pval (s.toList.length + 1) s.toList with
  | none => none
  | some (v, rest) => if (skipWs rest).isEmpty then some v else none

/-- Caller-visible reason string of the extraction ValueError
(`skill_analyzer.py` line 178; the Python message also interpolates the
decoder error, which the model elides). -/
def extract_fail_msg : String := "Could not extract valid JSON from LLM response"

/-- Embedding of the structured-extraction path of
`_analyze_single_job_match` (lines 147-178): clean the raw text and parse
it; on parse failure consult `_extract_json_with_regex` (an oracle
parameter `regexFb`, since it is backed by the `re` engine) and parse its
result when non-empty; otherwise signal the typed extraction failure. -/
def extract_structured (regexFb : String → String) (raw : String) :
    Except String Json :=
  match jparse (extract_json_from_response raw) with
  | some j => .ok j
  | none =>
    let m := regexFb raw
    if m ≠ "" then
      match jparse m with
      | some j => .ok j
      | none => .error extract_fail_msg
    else .error extract_fail_msg

/- ===================== Skill-gap analysis engine ===================== -/

/-- Resume fields consumed by the analyzer: extracted skills plus the
experience / education / projects sections (`resume_info['sections']`). -/
structure ResumeInfo where
  extracted_skills : List String
  experience : String
  education : String
  projects : String

/-- Job posting fields consumed by the analyzer. -/
structure Job where
  title : String
  company_name : String
  location : String
  apply_link : String
  description : String
  similarity_score : ℚ

/-- The fallback placeholder entered into missing-skill lists. -/
def failMsg : String := "Analysis failed - manual review needed"

/-- Message modelling the TypeError raised when a parsed non-dict payload
is assigned a `job_info` key (`analyze_resume_vs_jobs` line 65). -/
def type_err_msg : String :=
  "TypeError: analysis payload does not support item assignment"

/-- Embedding of `SkillGapAnalyzer._create_fallback_analysis`
(`backend/src/skill_analyzer.py` lines 253-289): naive substring matching
of resume skills against the lowercased job title+description, fallback
placeholders elsewhere, and the failure reason attached.  (The local
variables `resume_skills` and `common_skills` in the source are dead code
and have no counterpart here.) -/
def fallback_analysis (resume : ResumeInfo) (job : Job) (error : String) : JFields :=
  let job_text := String.mk (lowerL (job.description ++ " " ++ job.title).toList)
  let matching := resume.extracted_skills.filter
    (fun sk => strHas job_text (String.mk (lowerL sk.toList)))
  [("skill_gap_analysis", .obj [
      ("matching_skills", .arr (matching.map .str)),
      ("missing_skills", .arr [.str failMsg]),
      ("skill_level_gaps", .arr [.str failMsg]),
      ("transferable_skills", .arr ((resume.extracted_skills.take 3).map .str))]),
   ("recommendations", .obj [
      ("priority_skills_to_learn", .arr [.str "Review job description manually"]),
      ("learning_resources", .arr [.str "Coursera", .str "Udemy", .str "LinkedIn Learning"]),
      ("project_suggestions", .arr [.str "Build portfolio projects"]),
      ("timeline_estimate", .str "Review needed")]),
   ("job_match_assessment", .obj [
      ("overall_match_percentage", .str "Unable to calculate"),
      ("strengths", .arr [.str "Experience in relevant field"]),
      ("concerns", .arr [.str "Analysis system error"]),
      ("interview_preparation_tips",
        .arr [.str "Research the company", .str "Prepare STAR examples"])]),
   ("career_advice", .obj [
      ("application_readiness", .str "needs_review"),
      ("cover_letter_focus", .arr [.str "Highlight relevant experience"]),
      ("networking_suggestions", .arr [.str "LinkedIn connections"]),
      ("alternative_roles", .arr [.str "Similar positions in the field"])]),
   ("analysis_error", .str error)]

/-- The `job_info` block attached to every record
(`analyze_resume_vs_jobs` lines 65-71 and 77-83). -/
def job_info_json (job : Job) : Json :=
  .obj [("title", .str job.title),
        ("company", .str job.company_name),
        ("location", .str job.location),
        ("apply_link", .str job.apply_link),
        ("similarity_score", .num job.similarity_score)]

/-- Embedding of `SkillGapAnalyzer._analyze_single_job_match`
(lines 131-182): the orchestrator outcome for this job's prompt is the
oracle `oracle`; every failure (orchestrator exception or extraction
failure) is converted to the fallback analysis with the failure reason
`str(e)` (the exception's message in this model). -/
def analyze_single_job_match (regexFb : String → String)
    (oracle : Except PyExc String) (resume : ResumeInfo) (job : Job) : Json :=
  match oracle with
  | .error e => .obj (fallback_analysis resume job e.msg)
  | .ok raw =>
    match extract_structured regexFb raw with
    | .ok j => j
    | .error m => .obj (fallback_analysis resume job m)

/-- One iteration of the `analyze_resume_vs_jobs` loop (lines 62-85): attach
`job_info` to the analysis when it is a dict; a non-dict parsed payload
makes the assignment raise TypeError, which the loop catches and converts
to a fallback record with `job_info` attached. -/
def record_for (regexFb : String → String) (oracle : Except PyExc String)
    (resume : ResumeInfo) (job : Job) : JFields :=
  match analyze_single_job_match regexFb oracle resume job with
  | .obj fields => jsetF fields "job_info" (job_info_json job)
  | _ => jsetF (fallback_analysis resume job type_err_msg) "job_info" (job_info_json job)

/-- The analysis loop with the position index threading the per-job
orchestrator oracle. -/
def analyze_go (regexFb : String → String) (oracle : Nat → Except PyExc String)
    (resume : ResumeInfo) : Nat → List Job → List JFields
  | _, [] => []
  | i, j :: rest =>
    record_for regexFb (oracle i) resume j :: analyze_go regexFb oracle resume (i + 1) rest

/-- Embedding of `SkillGapAnalyzer.analyze_resume_vs_jobs` (lines 58-88):
`oracle i` is the orchestrator outcome for the i-th job's prompt. -/
def analyze_resume_vs_jobs (regexFb : String → String)
    (oracle : Nat → Except PyExc String) (resume : ResumeInfo)
    (jobs : List Job) : List JFields :=
  analyze_go regexFb oracle resume 0 jobs

/- ===================== Aggregate report (generate_overall_report) ===================== -/

/-- The percent character. -/
def percentC : Char := '%'

/-- Model of Python `int(str)`: strip whitespace, optional sign, then a
nonempty digit run (underscore separators are out of the modelled
fragment). -/
def pyIntOfString (s : String) : Option Int :=
  let l := pyStripL s.toList
  match l with
  | '-' :: ds =>
    if !ds.isEmpty && ds.all isDigitC then some (-(digitsToNat ds : Int)) else none
  | '+' :: ds =>
    if !ds.isEmpty && ds.all isDigitC then some ((digitsToNat ds : Int)) else none
  | ds =>
    if !ds.isEmpty && ds.all isDigitC then some ((digitsToNat ds : Int)) else none

/-- Model of Python `int(float)`: truncation toward zero. -/
def ratTrunc (q : ℚ) : Int := if 0 ≤ q then ⌊q⌋ else -⌊-q⌋

/-- Percentage parsing of `generate_overall_report` (lines 307-314): a
string is counted when it contains a percent sign and, with all percent
signs removed, parses as an int; an int or float is counted via `int(...)`;
a JSON boolean is a Python `bool`, which `isinstance(..., int)` accepts;
anything else is skipped. -/
def parse_pct : Json → Option Int
  | .str s =>
    if s.toList.contains percentC then
      pyIntOfString (String.mk (s.toList.filter (fun c => !(c == percentC))))
    else none
  | .int n => some n
  | .num q => some (ratTrunc q)
  | .bool b => some (if b then 1 else 0)
  | _ => none

/-- The overall-match value of one record as read by the report
(`analysis.get('job_match_assessment', {}).get('overall_match_percentage', '')`),
defined when the `job_match_assessment` value is a dict. -/
def record_pct (fs : JFields) : Option Int :=
  match jgetD fs "job_match_assessment" (.obj []) with
  | .obj jma => parse_pct (jgetD jma "overall_match_percentage" (.str ""))
  | _ => none

/-- Aggregation loop of `generate_overall_report` (lines 301-314):
collect every record's missing-skill and matching-skill entries and the
parseable overall-match percentages.  A record whose `skill_gap_analysis`
or `job_match_assessment` value is not a dict, or whose skill lists are not
JSON arrays, makes the Python code raise (`.get` on a non-dict /
`extend` on a non-iterable) — modelled as `.error ()`.  (For a string
skill-list Python `extend` would instead iterate characters; no claim
depends on that corner and it is folded into the fault case.) -/
def gather : List JFields → Except Unit (List Json × List Json × List Int)
  | [] => .ok ([], [], [])
  | fs :: rest =>
    match jgetD fs "skill_gap_analysis" (.obj []) with
    | .obj sg =>
      match jgetD sg "missing_skills" (.arr []), jgetD sg "matching_skills" (.arr []) with
      | .arr miss, .arr mat =>
        match jgetD fs "job_match_assessment" (.obj []) with
        | .obj jma =>
          match gather rest with
          | .ok (m1, m2, ps) =>
            .ok (miss ++ m1, mat ++ m2,
              match parse_pct (jgetD jma "overall_match_percentage" (.str "")) with
              | some n => n :: ps
              | none => ps)
          | .error u => .error u
        | _ => .error ()
      | _, _ => .error ()
    | _ => .error ()

/-- Erase all bindings of one key from a count list. -/
def erase_key (x : Json) (t : List (Json × Nat)) : List (Json × Nat) :=
  t.filter (fun kv => !(kv.1 == x))

/-- Model of `collections.Counter(xs)`: each distinct element with its
multiplicity, keyed in first-occurrence order. -/
def tally : List Json → List (Json × Nat)
  | [] => []
  | x :: xs => (x, 1 + xs.count x) :: erase_key x (tally xs)

/-- Count held by a tally for one element (0 when absent). -/
def lookup_count : List (Json × Nat) → Json → Nat
  | [], _ => 0
  | kv :: rest, x => if kv.1 == x then kv.2 else lookup_count rest x

/-- Model of `Counter(xs).most_common(n)`: entries sorted by count
descending — stable, so ties keep first-occurrence order, as Python's
`nlargest` does — truncated to `n`. -/
def most_common (n : Nat) (xs : List Json) : List (Json × Nat) :=
  ((tally xs).insertionSort (fun a b => b.2 ≤ a.2)).take n

/-- Decimal digit string of a natural number (fuel-bounded). -/
def natDigits_go : Nat → Nat → List Char
  | 0, _ => []
  | fuel + 1, n =>
    if n < 10 then [Char.ofNat (48 + n)]
    else natDigits_go fuel (n / 10) ++ [Char.ofNat (48 + n % 10)]

/-- Decimal string of a natural number. -/
def natStr (n : Nat) : String := String.mk (natDigits_go (n + 1) n)

/-- Round to the nearest integer, ties to even (how Python formats the
exactly-representable averages; general binary-float noise is outside the
rational idealisation). -/
def round_half_even (q : ℚ) : Int :=
  let f := ⌊q⌋
  let r := q - (f : ℚ)
  if r < 1 / 2 then f
  else if 1 / 2 < r then f + 1
  else if f % 2 = 0 then f else f + 1

/-- Model of `f"{avg:.1f}%"` (line 330). -/
def fmt_1f_pct (q : ℚ) : String :=
  let n := round_half_even (q * 10)
  let m := n.natAbs
  let core := natStr (m / 10) ++ "." ++ natStr (m % 10)
  (if n < 0 then "-" ++ core else core) ++ "%"

/-- Readiness classification of line 336: strictly greater than 70 is
"good", else strictly greater than 50 is "needs_improvement", else
"significant_gaps". -/
def readiness_of_avg (avg : ℚ) : String :=
  if avg > 70 then "good"
  else if avg > 50 then "needs_improvement"
  else "significant_gaps"

/-- Average of the parsed percentages: sum / count, 0 when none parsed
(line 325). -/
def avg_of (ps : List Int) : ℚ :=
  if ps.isEmpty then 0 else (ps.map (fun n => (n : ℚ))).sum / (ps.length : ℚ)

/-- Python `", ".join(...)`. -/
def joinComma : List String → String
  | [] => ""
  | [s] => s
  | s :: rest => s ++ ", " ++ joinComma rest

/-- All-strings view of a JSON list (Python `str.join` raises TypeError on
a non-string element). -/
def json_strs : List Json → Option (List String)
  | [] => some []
  | .str s :: rest => (json_strs rest).map (fun l => s :: l)
  | _ :: _ => none

/-- Embedding of `SkillGapAnalyzer._generate_next_steps` (lines 342-363);
`top_missing` is `most_common_missing[:5]` and the join of the top 3 skill
names raises when one is not a string. -/
def next_steps_of (top_missing : List (Json × Nat)) (avg : ℚ) :
    Except Unit (List String) :=
  let first :=
    if avg < 50 then "Focus on building foundational skills before applying to these positions"
    else if avg < 70 then "Develop 2-3 key missing skills to improve job readiness"
    else "You\x27re well-positioned for these roles - consider applying!"
  let tailSteps := ["Build portfolio projects demonstrating new skills",
    "Update resume to highlight relevant experience",
    "Practice behavioral interviews using STAR method",
    "Network with professionals in your target companies"]
  match top_missing with
  | [] => .ok (first :: tailSteps)
  | _ =>
    match json_strs ((top_missing.take 3).map (fun kv => kv.1)) with
    | some names =>
      .ok (first :: ("Priority learning areas: " ++ joinComma names) :: tailSteps)
    | none => .error ()

/-- The report emitted by `generate_overall_report` (lines 327-340),
flattened. -/
structure Report where
  total_jobs_analyzed : Nat
  average_match_percentage : String
  most_common_missing_skills : List Json
  strongest_skills : List Json
  top_skills_to_develop : List Json
  career_readiness : String
  next_steps : List String
  job_analyses : List JFields
deriving DecidableEq

/-- Outcome of `generate_overall_report`: the error dict for an empty
input, a runtime fault for ill-shaped records, or the report. -/
inductive ReportOutcome where
  | emptyInput
  | typeFault
  | report (r : Report)
deriving DecidableEq

/-- Embedding of `SkillGapAnalyzer.generate_overall_report`
(`backend/src/skill_analyzer.py` lines 291-340). -/
def generate_overall_report (analyses : List JFields) : ReportOutcome :=
  if analyses.isEmpty then .emptyInput
  else
    match gather analyses with
    | .error _ => .typeFault
    | .ok (allMissing, allMatching, pcts) =>
      let mcm := most_common 10 allMissing
      let mcmat := most_common 10 allMatching
      let avg := avg_of pcts
      match next_steps_of (mcm.take 5) avg with
      | .error _ => .typeFault
      | .ok steps =>
        .report {
          total_jobs_analyzed := analyses.length
          average_match_percentage := fmt_1f_pct avg
          most_common_missing_skills := mcm.map (fun kv => kv.1)
          strongest_skills := mcmat.map (fun kv => kv.1)
          top_skills_to_develop := (mcm.take 5).map (fun kv => kv.1)
          career_readiness := readiness_of_avg avg
          next_steps := steps
          job_analyses := analyses }

/-- Readiness field of a report outcome ("" otherwise). -/
def readiness_of : ReportOutcome → String
  | .report r => r.career_readiness
  | _ => ""

/-- Average-percentage field of a report outcome ("" otherwise). -/
def avg_str_of : ReportOutcome → String
  | .report r => r.average_match_percentage
  | _ => ""

/-- Concrete resume used by analyzer witnesses. -/
def resumeW : ResumeInfo := ⟨["Python", "SQL"], "exp", "edu", "proj"⟩

/-- Concrete jobs used by analyzer witnesses. -/
def jobW1 : Job := ⟨"Backend Developer", "Acme", "Remote", "http://x", "python sql job", 9/10⟩

/-- Second concrete job used by analyzer witnesses. -/
def jobW2 : Job := ⟨"Data Engineer", "Globex", "NYC", "http://y", "etl pipelines", 4/5⟩

/-- Missing-skill entries one record contributes to the aggregation (the
well-shaped reading of `analysis.get('skill_gap_analysis', {}).get('missing_skills', [])`). -/
def record_missing (fs : JFields) : List Json :=
  match jgetD fs "skill_gap_analysis" (.obj []) with
  | .obj sg =>
    match jgetD sg "missing_skills" (.arr []) with
    | .arr xs => xs
    | _ => []
  | _ => []

/-- Record carrying only an overall-match percentage string, used by
report examples. -/
def pct_record (p : String) : JFields :=
  [("job_match_assessment", Json.obj [("overall_match_percentage", Json.str p)])]

/-- Most-common-missing-skills field of a report outcome. -/
def missing_skills_of : ReportOutcome → List Json
  | .report r => r.most_common_missing_skills
  | _ => []

/-- Provider that always fails with a 401 "Unauthorized" error. -/
def authFailProvider : ProviderB :=
  { create := none, invokeAt := fun _ => .error ⟨some 401, "Unauthorized"⟩ }

/-- Provider behavior raising only Retryable (timeout) errors. -/
def timeoutFailProvider : ProviderB :=
  { create := none, invokeAt := fun _ => .error ⟨none, "Read timeout"⟩ }

/-- Provider behavior that succeeds on the first call. -/
def okProvider : ProviderB :=
  { create := none, invokeAt := fun _ => .ok "generated text" }

/-- Single raw match used by the C5 counterexample. -/
def c5zero : MatchR := ⟨some "z", some 1, none, []⟩

/- ===================== THEOREMS ===================== -/

/-- C8: error classification is a total function of the status-code-like
attribute and the lowercased message, mapping each exception to exactly one
of FatalAuth / RateLimited / Retryable by the spec's ordered cascade; the
code's explicit timeout/connection/5xx branch and its optimistic default
both yield Retryable, so the code agrees with the spec's cascade on every
exception. -/
theorem classification_matches_spec (e : PyExc) :
    classify_error e = classify_spec e := by
  unfold classify_error classify_spec
  dsimp only
  split
  · rfl
  · split
    · rfl
    · split <;> rfl

example : classify_error ⟨none, "HTTP 500: Invalid request"⟩ = .fatal_auth := by decide
example : classify_error ⟨some 429, "Too many requests"⟩ = .rate_limit := by decide
example : classify_error ⟨some 503, "Service unavailable"⟩ = .retryable := by decide
example : classify_error ⟨none, "Read timeout"⟩ = .retryable := by decide
example : classify_error ⟨none, "something odd"⟩ = .retryable := by decide

/-- Unfolding equation: `first_success` on a cons cell. -/
theorem first_success_cons (r : Nat) (b : ℚ) (p : ProviderB) (ps : List ProviderB) :
    first_success r b (p :: ps) =
      (match provider_outcome p r b with
       | .ok t => some t
       | .error _ => first_success r b ps) := rfl

/-- Unfolding equation: `last_provider_error` on a singleton. -/
theorem last_provider_error_single (r : Nat) (b : ℚ) (p : ProviderB) :
    last_provider_error r b [p] =
      (match provider_outcome p r b with
       | .ok _ => none
       | .error e => some e) := rfl

/-- Unfolding equation: `last_provider_error` skips all but the last element. -/
theorem last_provider_error_cons₂ (r : Nat) (b : ℚ) (p q : ProviderB)
    (qs : List ProviderB) :
    last_provider_error r b (p :: q :: qs) = last_provider_error r b (q :: qs) := rfl

/-- Unfolding equation: `ask_go` on a cons cell. -/
theorem ask_go_cons (r : Nat) (b : ℚ) (p : ProviderB) (ps : List ProviderB)
    (last : Option PyExc) :
    ask_go r b (p :: ps) last =
      (match p.create with
       | some e => (0 :: (ask_go r b ps (some e)).1, (ask_go r b ps (some e)).2)
       | none =>
         match run_provider p r b with
         | (.ok t, n, _) => (n :: ps.map (fun _ => 0), .ok t)
         | (.error e, n, _) =>
           (n :: (ask_go r b ps (some e)).1, (ask_go r b ps (some e)).2)) := rfl

/-- The retry loop always makes at least the attempt it starts with. -/
theorem provider_loop_attempt_le (inv : Nat → Except PyExc String) (b : ℚ) :
    ∀ remaining attempt, attempt ≤ (provider_loop inv b attempt remaining).2.1 := by
  intro remaining
  induction remaining with
  | zero =>
    intro attempt
    unfold provider_loop
    split
    · simp
    · split <;> simp
  | succ r ih =>
    intro attempt
    unfold provider_loop
    split
    · simp
    · split
      · simp
      · simp
      · dsimp only
        exact le_trans (Nat.le_succ attempt) (ih (attempt + 1))

/-- When every provider fails, the last provider contributes an error. -/
theorem first_success_none_last_error (r : Nat) (b : ℚ) :
    ∀ (p : ProviderB) (ps : List ProviderB),
      first_success r b (p :: ps) = none →
      ∃ e, last_provider_error r b (p :: ps) = some e := by
  intro p ps
  induction ps generalizing p with
  | nil =>
    intro h
    rw [first_success_cons] at h
    rw [last_provider_error_single]
    cases hq : provider_outcome p r b with
    | ok t => rw [hq] at h; simp at h
    | error e => exact ⟨e, rfl⟩
  | cons q qs ih =>
    intro h
    rw [first_success_cons] at h
    rw [last_provider_error_cons₂]
    cases hq : provider_outcome p r b with
    | ok t => rw [hq] at h; simp at h
    | error e => rw [hq] at h; exact ih q h

/-- Outcome of `ask_go` as a function of the first success and the last
provider error, for any threaded `last_exc`. -/
theorem ask_go_characterization (r : Nat) (b : ℚ) :
    ∀ (ps : List ProviderB) (last : Option PyExc),
      (ask_go r b ps last).2 =
        match first_success r b ps, last_provider_error r b ps with
        | some t, _ => .ok t
        | none, some e => .error (some (.plainExc e))
        | none, none => .error (last.map .plainExc) := by
  intro ps
  induction ps with
  | nil => intro last; rfl
  | cons p ps ih =>
    intro last
    have houter :
        (ask_go r b (p :: ps) last).2 =
          match provider_outcome p r b with
          | .ok t => .ok t
          | .error e => (ask_go r b ps (some e)).2 := by
      rw [ask_go_cons]
      unfold provider_outcome
      cases hc : p.create with
      | some e => rfl
      | none =>
        cases hr : run_provider p r b with
        | mk res rest =>
          cases res with
          | ok t => rfl
          | error e => rfl
    rw [houter, first_success_cons]
    cases hq : provider_outcome p r b with
    | ok t => rfl
    | error e =>
      dsimp only
      rw [ih (some e)]
      cases ps with
      | nil =>
        rw [last_provider_error_single, hq]
        rfl
      | cons q qs =>
        rw [last_provider_error_cons₂]
        cases hf : first_success r b (q :: qs) with
        | some t => rfl
        | none =>
          obtain ⟨e', he'⟩ := first_success_none_last_error r b q qs hf
          rw [he']

/-- C1 (amended): `ask` returns a text result as soon as some provider call
succeeds, and fails exactly when every provider has been exhausted without
success, re-raising the last observed error itself (the code has no
`AllProvidersFailedError` wrapper class; `raise last_exc` surfaces the last
caught provider exception unchanged, and no other error reaches the
caller). -/
theorem ask_first_success_or_plain_last_error (providers : List ProviderB)
    (retries : Nat) (backoff : ℚ) :
    ask providers retries backoff = ask_spec providers retries backoff ∧
    raised_is_wrapped (ask providers retries backoff) = false := by
  have h := ask_go_characterization retries backoff providers none
  constructor
  · show (ask_go retries backoff providers none).2 = _
    rw [h]
    unfold ask_spec
    cases hf : first_success retries backoff providers with
    | some t => rfl
    | none =>
      cases hl : last_provider_error retries backoff providers with
      | some e => rfl
      | none => rfl
  · show raised_is_wrapped (ask_go retries backoff providers none).2 = false
    rw [h]
    cases hf : first_success retries backoff providers with
    | some t => rfl
    | none =>
      cases hl : last_provider_error retries backoff providers with
      | some e => rfl
      | none => rfl

/-- C1 (counterexample): with a single provider that always fails, `ask`
raises the last observed provider exception itself, not an
`AllProvidersFailedError` wrapping it — the claimed wrapper is a different
value, so the claim as stated is false on the code. -/
theorem ask_raises_plain_not_wrapped :
    ask [authFailProvider] 2 1 =
      .error (some (.plainExc ⟨some 401, "Unauthorized"⟩)) ∧
    (Except.error (some (Raised.plainExc ⟨some 401, "Unauthorized"⟩)) :
        Except (Option Raised) String) ≠
      .error (some (.allProvidersFailed ⟨some 401, "Unauthorized"⟩)) ∧
    raised_is_wrapped (ask [authFailProvider] 2 1) = false := by
  refine ⟨rfl, by simp, rfl⟩

/-- C2: the per-provider retry decision is a function of the error
classification.  (a) A FatalAuth- or RateLimited-classified first failure
abandons the provider after exactly one invocation with no local retry and
no backoff sleep; (b) with providers [A, B] where A always raises FatalAuth,
A is invoked exactly once and B is then invoked at least once; (c) a
Retryable-classified failure sleeps `backoff * 2 ^ (attempt - 1)` and
retries the same provider while the attempt count is within the limit, so a
single provider raising only Retryable errors with `per_provider_retries =
2` is invoked exactly 3 times (sleeping backoff*2^0 then backoff*2^1) and
the request then fails with the last error. -/
theorem retry_policy_per_classification (b : ℚ) (r : Nat)
    (inv : Nat → Except PyExc String) (p q : ProviderB) (rest : List ProviderB)
    (e e1 e2 e3 : PyExc) :
    (inv 1 = .error e →
      (classify_error e = .fatal_auth ∨ classify_error e = .rate_limit) →
      provider_loop inv b 1 r = (.error e, 1, [])) ∧
    (p.create = none → p.invokeAt 1 = .error e →
      classify_error e = .fatal_auth → q.create = none →
      ∃ cs, ask_counts (p :: q :: rest) r b =
          1 :: (run_provider q r b).2.1 :: cs ∧
        1 ≤ (run_provider q r b).2.1) ∧
    (p.create = none → p.invokeAt 1 = .error e1 → p.invokeAt 2 = .error e2 →
      p.invokeAt 3 = .error e3 →
      classify_error e1 = .retryable → classify_error e2 = .retryable →
      classify_error e3 = .retryable →
      run_provider p 2 b = (.error e3, 3, [b * 2 ^ 0, b * 2 ^ 1]) ∧
      ask_counts [p] 2 b = [3] ∧
      ask [p] 2 b = .error (some (.plainExc e3))) := by
  have habandon : ∀ (inv2 : Nat → Except PyExc String) (r2 : Nat) (e' : PyExc),
      inv2 1 = .error e' →
      (classify_error e' = .fatal_auth ∨ classify_error e' = .rate_limit) →
      provider_loop inv2 b 1 r2 = (.error e', 1, []) := by
    intro inv2 r2 e' h1 h2
    unfold provider_loop
    rw [h1]
    dsimp only
    rcases h2 with h2 | h2 <;> rw [h2]
  refine ⟨habandon inv r e, ?_, ?_⟩
  · intro hpc hp1 hcls hqc
    have hrp : run_provider p r b = (.error e, 1, []) :=
      habandon p.invokeAt r e hp1 (Or.inl hcls)
    have hn : 1 ≤ (run_provider q r b).2.1 := provider_loop_attempt_le q.invokeAt b r 1
    unfold ask_counts
    rw [ask_go_cons, hpc]
    dsimp only
    rw [hrp]
    dsimp only
    rw [ask_go_cons, hqc]
    dsimp only
    rcases hq : run_provider q r b with ⟨res, n, sl⟩
    rw [hq] at hn
    dsimp only at hn
    cases res with
    | ok t => exact ⟨rest.map (fun _ => 0), rfl, hn⟩
    | error e' => exact ⟨(ask_go r b rest (some e')).1, rfl, hn⟩
  · intro hpc h1 h2 h3 hc1 hc2 hc3
    have s3 : provider_loop p.invokeAt b 3 0 = (.error e3, 3, []) := by
      unfold provider_loop
      rw [h3]
      dsimp only
      rw [hc3]
    have s2 : provider_loop p.invokeAt b 2 1 = (.error e3, 3, [b * 2 ^ (2 - 1)]) := by
      unfold provider_loop
      rw [h2]
      dsimp only
      rw [hc2]
      dsimp only
      have h23 : (2 : Nat) + 1 = 3 := rfl
      rw [h23, s3]
    have s1 : provider_loop p.invokeAt b 1 2 =
        (.error e3, 3, [b * 2 ^ (1 - 1), b * 2 ^ (2 - 1)]) := by
      unfold provider_loop
      rw [h1]
      dsimp only
      rw [hc1]
      dsimp only
      have h12 : (1 : Nat) + 1 = 2 := rfl
      rw [h12, s2]
    have hrp : run_provider p 2 b = (.error e3, 3, [b * 2 ^ 0, b * 2 ^ 1]) := by
      show provider_loop p.invokeAt b 1 2 = _
      rw [s1]
    refine ⟨hrp, ?_, ?_⟩
    · unfold ask_counts
      rw [ask_go_cons, hpc]
      dsimp only
      rw [hrp]
      rfl
    · unfold ask
      rw [ask_go_cons, hpc]
      dsimp only
      rw [hrp]
      rfl

/-- C2 witness: the retry policy theorem instantiated at concrete provider
behaviors — a FatalAuth provider is abandoned after 1 call with no sleeps,
provider B is then invoked, and a Retryable-only provider with retry limit 2
is invoked exactly 3 times before the request fails. -/
theorem retry_policy_per_classification_witness :
    provider_loop authFailProvider.invokeAt 1 1 5 =
      (.error ⟨some 401, "Unauthorized"⟩, 1, []) ∧
    (∃ cs, ask_counts [authFailProvider, okProvider] 5 1 =
        1 :: (run_provider okProvider 5 1).2.1 :: cs ∧
      1 ≤ (run_provider okProvider 5 1).2.1) ∧
    (run_provider timeoutFailProvider 2 1 =
        (.error ⟨none, "Read timeout"⟩, 3, [(1 : ℚ) * 2 ^ 0, (1 : ℚ) * 2 ^ 1]) ∧
      ask_counts [timeoutFailProvider] 2 1 = [3] ∧
      ask [timeoutFailProvider] 2 1 =
        .error (some (.plainExc ⟨none, "Read timeout"⟩))) := by
  have h := retry_policy_per_classification (b := 1) (r := 5)
    authFailProvider.invokeAt authFailProvider okProvider []
    ⟨some 401, "Unauthorized"⟩ ⟨none, "Read timeout"⟩ ⟨none, "Read timeout"⟩
    ⟨none, "Read timeout"⟩
  have h' := retry_policy_per_classification (b := 1) (r := 5)
    timeoutFailProvider.invokeAt timeoutFailProvider okProvider []
    ⟨some 401, "Unauthorized"⟩ ⟨none, "Read timeout"⟩ ⟨none, "Read timeout"⟩
    ⟨none, "Read timeout"⟩
  refine ⟨h.1 rfl (Or.inl (by decide)),
    h.2.1 rfl rfl (by decide) rfl,
    h'.2.2 rfl rfl rfl rfl (by decide) (by decide) (by decide)⟩

/-- Concatenating the slices recovers the input (any `k`). -/
theorem slices_go_flatten (k : Nat) :
    ∀ (l : List Char) (n : Nat) (acc : List Char),
      (slices_go k n acc l).flatten = acc.reverse ++ l := by
  intro l
  induction l with
  | nil =>
    intro n acc
    unfold slices_go
    cases acc with
    | nil => simp
    | cons a as => simp
  | cons c cs ih =>
    intro n acc
    cases n with
    | zero =>
      show (acc.reverse :: slices_go k (k - 1) [c] cs).flatten = acc.reverse ++ c :: cs
      simp [ih]
    | succ n =>
      show (slices_go k n (c :: acc) cs).flatten = acc.reverse ++ c :: cs
      rw [ih]
      simp

/-- Concatenating all unfiltered slices reconstructs the text exactly. -/
theorem py_slices_flatten (k : Nat) (l : List Char) :
    (py_slices k l).flatten = l := by
  unfold py_slices
  rw [slices_go_flatten]
  simp

/-- Every slice has length at most `k` (for a positive slice size). -/
theorem py_slices_length_le (k : Nat) (hk : 0 < k) (l : List Char) :
    ∀ ch ∈ py_slices k l, ch.length ≤ k := by
  have main : ∀ (l : List Char) (n : Nat) (acc : List Char),
      acc.length + n = k → ∀ ch ∈ slices_go k n acc l, ch.length ≤ k := by
    intro l
    induction l with
    | nil =>
      intro n acc hinv ch hch
      unfold slices_go at hch
      by_cases hacc : acc.isEmpty
      · simp [hacc] at hch
      · simp [hacc] at hch
        subst hch
        simp only [List.length_reverse]
        omega
    | cons c cs ih =>
      intro n acc hinv ch hch
      cases n with
      | zero =>
        unfold slices_go at hch
        rcases List.mem_cons.mp hch with hch | hch
        · subst hch
          simp only [List.length_reverse]
          omega
        · exact ih (k - 1) [c] (by simp only [List.length_singleton]; omega) ch hch
      | succ n =>
        unfold slices_go at hch
        exact ih n (c :: acc) (by simp only [List.length_cons]; omega) ch hch
  intro ch hch
  exact main l k [] (by simp) ch hch

/-- C9 (amended): for a positive maximum chunk length, the slicing step
produces contiguous, non-overlapping slices of at most that length whose
ordered concatenation reconstructs the (stripped) source text exactly; the
pipeline then drops the slices that are whitespace-only, so the retained
chunks reconstruct the source exactly whenever no slice is whitespace-only.
-/
theorem chunking_reconstructs_trimmed (k : Nat) (l : List Char) (hk : 0 < k) :
    (py_slices k l).flatten = l ∧
    (∀ ch ∈ py_slices k l, ch.length ≤ k) ∧
    embed_chunks k l = (py_slices k l).filter (fun c => !(pyStripL c).isEmpty) ∧
    ((∀ ch ∈ py_slices k l, !(pyStripL ch).isEmpty) →
      (embed_chunks k l).flatten = l) := by
  refine ⟨py_slices_flatten k l, py_slices_length_le k hk l, rfl, ?_⟩
  intro hall
  unfold embed_chunks
  rw [List.filter_eq_self.mpr hall]
  exact py_slices_flatten k l

/-- C9 witness: the amended chunking theorem applied at chunk size 2 to the
text "abc", whose slices are "ab", "c" — no slice is whitespace-only, so
the chunk concatenation reconstructs the text. -/
theorem chunking_reconstructs_trimmed_witness :
    (py_slices 2 ['a', 'b', 'c']).flatten = ['a', 'b', 'c'] ∧
    (∀ ch ∈ py_slices 2 ['a', 'b', 'c'], ch.length ≤ 2) ∧
    (embed_chunks 2 ['a', 'b', 'c']).flatten = ['a', 'b', 'c'] := by
  have h := chunking_reconstructs_trimmed 2 ['a', 'b', 'c'] (by decide)
  exact ⟨h.1, h.2.1, h.2.2.2 (by decide)⟩

/-- C9 (counterexample): for the source text "aa  b" (already equal to its
strip) at chunk size 2, the middle slice "  " is whitespace-only and is
dropped, so the ordered concatenation of the produced chunks is "aab",
which does not reconstruct the source text. -/
theorem chunk_concat_differs_from_source :
    pyStripL c9text = c9text ∧
    embed_chunks 2 c9text = [['a', 'a'], ['b']] ∧
    (embed_chunks 2 c9text).flatten ≠ c9text := by
  refine ⟨by decide, by decide, by decide⟩

/-- Element-wise sum of two vectors followed by halving is the element-wise
two-vector mean. -/
theorem mean_vecs_pair (v w : List ℚ) :
    mean_vecs [v, w] = List.zipWith (fun a b => (a + b) / 2) v w := by
  unfold mean_vecs
  rw [show sum_vecs [v, w] = List.zipWith (fun a b => a + b) v w from rfl]
  simp only [List.length_cons, List.length_nil]
  rw [List.map_zipWith]
  norm_num

/-- C4: `embed` short-circuits whitespace-only input to an explicit empty
result with no embedding call; a single produced chunk returns that chunk's
embedding unchanged with no averaging; several produced chunks (e.g. text
exactly twice the chunk length, which slices into two chunks) return the
element-wise arithmetic mean of the per-chunk embeddings — stated both for
exactly two chunks and for any multi-chunk list. -/
theorem embed_text_cases (model : String → List ℚ) (k : Nat) (s : String) :
    (pyStripL s.toList = [] →
      embed_text model k s = [] ∧ embed_calls k s = []) ∧
    (∀ c, embed_chunks k (pyStripL s.toList) = [c] →
      embed_text model k s = model (String.mk c)) ∧
    (∀ c₁ c₂, embed_chunks k (pyStripL s.toList) = [c₁, c₂] →
      embed_text model k s =
        List.zipWith (fun a b => (a + b) / 2)
          (model (String.mk c₁)) (model (String.mk c₂))) ∧
    (∀ cs, embed_chunks k (pyStripL s.toList) = cs → 2 ≤ cs.length →
      embed_text model k s = mean_vecs (cs.map (fun c => model (String.mk c)))) := by
  refine ⟨?_, ?_, ?_, ?_⟩
  · intro h
    unfold embed_text embed_calls
    rw [h]
    exact ⟨rfl, rfl⟩
  · intro c hc
    unfold embed_text
    have hne : pyStripL s.toList ≠ [] := by
      intro h0
      rw [h0] at hc
      simp [embed_chunks, py_slices, slices_go] at hc
    rw [if_neg (by simpa using hne), hc]
    rfl
  · intro c₁ c₂ hc
    unfold embed_text
    have hne : pyStripL s.toList ≠ [] := by
      intro h0
      rw [h0] at hc
      simp [embed_chunks, py_slices, slices_go] at hc
    rw [if_neg (by simpa using hne), hc]
    exact mean_vecs_pair _ _
  · intro cs hc hlen
    unfold embed_text
    have hne : pyStripL s.toList ≠ [] := by
      intro h0
      rw [h0] at hc
      rw [← hc] at hlen
      simp [embed_chunks, py_slices, slices_go] at hlen
    rw [if_neg (by simpa using hne), hc]
    cases cs with
    | nil => simp at hlen
    | cons c cs' =>
      cases cs' with
      | nil => simp at hlen
      | cons c' cs'' => rfl

/-- C4 witness: at chunk size 2, whitespace-only input yields no call and an
empty vector; "ab" is one chunk and returns its embedding unchanged; "abcd"
is two chunks and returns the element-wise mean of the two chunk
embeddings. -/
theorem embed_text_cases_witness :
    (embed_text embedModelW 2 "  " = [] ∧ embed_calls 2 "  " = []) ∧
    embed_text embedModelW 2 "ab" = embedModelW (String.mk ['a', 'b']) ∧
    embed_text embedModelW 2 "abcd" =
      List.zipWith (fun a b => (a + b) / 2)
        (embedModelW (String.mk ['a', 'b'])) (embedModelW (String.mk ['c', 'd'])) := by
  refine ⟨(embed_text_cases embedModelW 2 "  ").1 (by decide),
    (embed_text_cases embedModelW 2 "ab").2.1 ['a', 'b'] (by decide),
    (embed_text_cases embedModelW 2 "abcd").2.2.1 ['a', 'b'] ['c', 'd'] (by decide)⟩

/-- The dedupe loop, entered with room left (`cnt < topK`), returns the
first-occurrence list truncated to the remaining room. -/
theorem fs_go_characterization (topK : Int) :
    ∀ (ms : List MatchR) (seen : List (Option String)) (cnt : Int),
      cnt < topK →
      fs_go topK ms seen cnt =
        ((dedup_first seen ms).map job_info_of).take (topK - cnt).toNat := by
  intro ms
  induction ms with
  | nil => intro seen cnt _; simp [fs_go, dedup_first]
  | cons m ms ih =>
    intro seen cnt hlt
    unfold fs_go dedup_first
    by_cases hdup : m.id ∈ seen
    · rw [if_pos hdup, if_pos hdup]
      exact ih seen cnt hlt
    · rw [if_neg hdup, if_neg hdup]
      dsimp only
      by_cases hfull : topK ≤ cnt + 1
      · rw [if_pos hfull]
        have h1 : (topK - cnt).toNat = 1 := by omega
        rw [h1]
        rfl
      · rw [if_neg hfull]
        rw [ih (m.id :: seen) (cnt + 1) (by omega)]
        have h2 : (topK - cnt).toNat = (topK - (cnt + 1)).toNat + 1 := by omega
        rw [h2]
        rfl

/-- First-occurrence ids are pairwise distinct and avoid the seen set. -/
theorem dedup_first_ids_nodup :
    ∀ (ms : List MatchR) (seen : List (Option String)),
      ((dedup_first seen ms).map MatchR.id).Nodup ∧
      ∀ m ∈ dedup_first seen ms, m.id ∉ seen := by
  intro ms
  induction ms with
  | nil => intro seen; exact ⟨List.nodup_nil, by simp [dedup_first]⟩
  | cons m ms ih =>
    intro seen
    unfold dedup_first
    by_cases hdup : m.id ∈ seen
    · rw [if_pos hdup]
      exact ih seen
    · rw [if_neg hdup]
      obtain ⟨hnodup, hnotin⟩ := ih (m.id :: seen)
      refine ⟨?_, ?_⟩
      · simp only [List.map_cons, List.nodup_cons]
        refine ⟨?_, hnodup⟩
        intro hmem
        obtain ⟨m', hm', hid⟩ := List.mem_map.mp hmem
        exact hnotin m' hm' (hid ▸ List.mem_cons_self _ _)
      · intro m' hm'
        rcases List.mem_cons.mp hm' with h | h
        · subst h; exact hdup
        · intro hs
          exact hnotin m' h (List.mem_cons_of_mem _ hs)

/-- C5 (amended): for every `topK ≥ 1`, `findSimilar` requests
`max(10, 2*topK)` candidates, and its result is exactly the
first-occurrence-per-id sequence of the raw matches (preserving original
relevance order) truncated to `topK` — hence it has length ≤ topK and
pairwise-distinct ids.  (For `topK ≤ 0` the break is only checked after the
first append, so one match is still returned — see the counterexample.) -/
theorem find_similar_contract (ms : List MatchR) (topK : Int) (h : 1 ≤ topK) :
    requested_top_k topK = max 10 (topK * 2) ∧
    find_similar_jobs ms topK =
      ((dedup_first [] ms).map job_info_of).take topK.toNat ∧
    (find_similar_jobs ms topK).length ≤ topK.toNat ∧
    ((find_similar_jobs ms topK).map JobInfo.job_id).Nodup := by
  have hchar : find_similar_jobs ms topK =
      ((dedup_first [] ms).map job_info_of).take topK.toNat := by
    unfold find_similar_jobs
    rw [fs_go_characterization topK ms [] 0 (by omega)]
    norm_num
  refine ⟨rfl, hchar, ?_, ?_⟩
  · rw [hchar]
    exact List.length_take_le _ _
  · rw [hchar]
    have hcomp : ((dedup_first [] ms).map job_info_of).map JobInfo.job_id =
        (dedup_first [] ms).map MatchR.id := by
      rw [List.map_map]
      rfl
    have hnodup := (dedup_first_ids_nodup ms []).1
    have hsub : (((dedup_first [] ms).map job_info_of).take topK.toNat).map JobInfo.job_id
        |>.Sublist (((dedup_first [] ms).map job_info_of).map JobInfo.job_id) :=
      (List.take_sublist _ _).map _
    rw [hcomp] at hsub
    exact hsub.nodup hnodup

/-- C5 witness: five raw matches containing one duplicate id, with
`topK = 4`, yield exactly 4 unique matches in original relevance order. -/
theorem find_similar_contract_witness :
    (requested_top_k 4 = max 10 (4 * 2) ∧
      find_similar_jobs c5matches 4 =
        ((dedup_first [] c5matches).map job_info_of).take (4 : Int).toNat ∧
      (find_similar_jobs c5matches 4).length ≤ (4 : Int).toNat ∧
      ((find_similar_jobs c5matches 4).map JobInfo.job_id).Nodup) ∧
    (find_similar_jobs c5matches 4).length = 4 ∧
    (find_similar_jobs c5matches 4).map JobInfo.job_id =
      [some "a", some "b", some "c", some "d"] := by
  refine ⟨find_similar_contract c5matches 4 (by decide), by decide, by decide⟩

/-- C5 (counterexample): with `topK = 0` and one raw match, the break test
runs only after the first append, so the returned list has length 1 > topK —
the claimed bound `length ≤ topK` fails for every `topK ≤ 0`. -/
theorem find_similar_topk_zero_overflow :
    find_similar_jobs [c5zero] 0 = [job_info_of c5zero] ∧
    ¬ (((find_similar_jobs [c5zero] 0).length : Int) ≤ 0) := by
  refine ⟨by decide, by decide⟩

/-- C6: the structured-response extraction path is total — for every raw
generated text it either returns a parsed structured payload or signals the
typed extraction failure (never an escaping parse exception); input wrapped
as a content-quoted envelope around the object with field "a" holding 1 has
the envelope stripped and parses to that payload; and the caller converts
every signalled extraction failure into a fallback record. -/
theorem extract_total_and_unwraps (regexFb : String → String) (raw : String) :
    ((∃ p, extract_structured regexFb raw = .ok p) ∨
      (∃ m, extract_structured regexFb raw = .error m)) ∧
    extract_json_from_response "content=\x27\x7b\"a\":1\x7d\x27" = "\x7b\"a\":1\x7d" ∧
    extract_structured regexFb "content=\x27\x7b\"a\":1\x7d\x27" =
      .ok (.obj [("a", .int 1)]) ∧
    (∀ m resume job, extract_structured regexFb raw = .error m →
      analyze_single_job_match regexFb (.ok raw) resume job =
        .obj (fallback_analysis resume job m)) := by
  refine ⟨?_, rfl, rfl, ?_⟩
  · cases hE : extract_structured regexFb raw with
    | ok p => exact Or.inl ⟨p, rfl⟩
    | error m => exact Or.inr ⟨m, rfl⟩
  · intro m resume job hE
    unfold analyze_single_job_match
    dsimp only
    rw [hE]

/-- C6 witness: with the regex fallback returning nothing, the envelope
example extracts to the parsed payload, and a brace-free raw text signals
the typed failure, which the single-job path converts to the fallback
record. -/
theorem extract_total_and_unwraps_witness :
    extract_structured (fun _ => "") "content=\x27\x7b\"a\":1\x7d\x27" =
      .ok (.obj [("a", .int 1)]) ∧
    extract_structured (fun _ => "") "no braces here" = .error extract_fail_msg ∧
    analyze_single_job_match (fun _ => "") (.ok "no braces here") resumeW jobW1 =
      .obj (fallback_analysis resumeW jobW1 extract_fail_msg) := by
  refine ⟨(extract_total_and_unwraps (fun _ => "") "no braces here").2.2.1, rfl,
    (extract_total_and_unwraps (fun _ => "") "no braces here").2.2.2
      extract_fail_msg resumeW jobW1 rfl⟩

/-- A failed orchestrator call yields exactly the fallback record with
`job_info` attached. -/
theorem record_for_error (regexFb : String → String) (e : PyExc)
    (resume : ResumeInfo) (job : Job) :
    record_for regexFb (.error e) resume job =
      jsetF (fallback_analysis resume job e.msg) "job_info" (job_info_json job) := rfl

/-- Unfolding equation: the analysis loop on a cons cell. -/
theorem analyze_go_cons (regexFb : String → String)
    (oracle : Nat → Except PyExc String) (resume : ResumeInfo) (i : Nat)
    (j : Job) (rest : List Job) :
    analyze_go regexFb oracle resume i (j :: rest) =
      record_for regexFb (oracle i) resume j ::
        analyze_go regexFb oracle resume (i + 1) rest := rfl

/-- Index-shifted characterization of the analysis loop. -/
theorem analyze_go_spec (regexFb : String → String)
    (oracle : Nat → Except PyExc String) (resume : ResumeInfo) :
    ∀ (jobs : List Job) (i : Nat),
      (analyze_go regexFb oracle resume i jobs).length = jobs.length ∧
      ∀ k (h : k < jobs.length),
        (analyze_go regexFb oracle resume i jobs)[k]? =
          some (record_for regexFb (oracle (i + k)) resume (jobs.get ⟨k, h⟩)) := by
  intro jobs
  induction jobs with
  | nil => intro i; exact ⟨rfl, fun k h => absurd h (by simp)⟩
  | cons j rest ih =>
    intro i
    rw [analyze_go_cons]
    refine ⟨?_, ?_⟩
    · simp [(ih (i + 1)).1]
    · intro k h
      cases k with
      | zero =>
        simp only [Nat.add_zero, List.getElem?_cons_zero]
        rfl
      | succ k =>
        simp only [List.getElem?_cons_succ]
        rw [(ih (i + 1)).2 k (by simpa using h)]
        rw [show i + 1 + k = i + (k + 1) by omega]
        rfl

/-- C3: `analyze` is total and never drops a job — for every resume, every
job list and every per-job orchestrator/extraction behavior it returns
exactly one record per job in input order; a job whose orchestrator call
raises (e.g. with the last provider error when all providers are
exhausted) contributes the fallback record for that job rather than
aborting the batch. -/
theorem analyze_one_record_per_job (regexFb : String → String)
    (oracle : Nat → Except PyExc String) (resume : ResumeInfo) (jobs : List Job) :
    (analyze_resume_vs_jobs regexFb oracle resume jobs).length = jobs.length ∧
    (∀ k (h : k < jobs.length),
      (analyze_resume_vs_jobs regexFb oracle resume jobs)[k]? =
        some (record_for regexFb (oracle k) resume (jobs.get ⟨k, h⟩))) ∧
    (∀ k (h : k < jobs.length) (e : PyExc), oracle k = .error e →
      (analyze_resume_vs_jobs regexFb oracle resume jobs)[k]? =
        some (jsetF (fallback_analysis resume (jobs.get ⟨k, h⟩) e.msg) "job_info"
          (job_info_json (jobs.get ⟨k, h⟩)))) := by
  obtain ⟨hlen, hidx⟩ := analyze_go_spec regexFb oracle resume jobs 0
  unfold analyze_resume_vs_jobs
  refine ⟨hlen, ?_, ?_⟩
  · intro k h
    have := hidx k h
    rwa [Nat.zero_add] at this
  · intro k h e he
    have hk := hidx k h
    rw [Nat.zero_add] at hk
    rw [hk, he, record_for_error]

/-- C3 witness: two jobs whose orchestrator calls both fail still yield a
full-length list of fallback records, one per job, in input order. -/
theorem analyze_one_record_per_job_witness :
    (analyze_resume_vs_jobs (fun _ => "")
        (fun _ => .error ⟨none, "boom"⟩) resumeW [jobW1, jobW2]).length = 2 ∧
    (analyze_resume_vs_jobs (fun _ => "")
        (fun _ => .error ⟨none, "boom"⟩) resumeW [jobW1, jobW2])[0]? =
      some (jsetF (fallback_analysis resumeW jobW1 "boom") "job_info"
        (job_info_json jobW1)) ∧
    (analyze_resume_vs_jobs (fun _ => "")
        (fun _ => .error ⟨none, "boom"⟩) resumeW [jobW1, jobW2])[1]? =
      some (jsetF (fallback_analysis resumeW jobW2 "boom") "job_info"
        (job_info_json jobW2)) := by
  have h := analyze_one_record_per_job (fun _ => "")
    (fun _ => .error ⟨none, "boom"⟩) resumeW [jobW1, jobW2]
  exact ⟨h.1, h.2.2 0 (by decide) ⟨none, "boom"⟩ rfl,
    h.2.2 1 (by decide) ⟨none, "boom"⟩ rfl⟩

/-- What a successful aggregation pass collects: the concatenation of the
records' missing-skill lists, and exactly the parseable overall-match
values, in record order. -/
theorem gather_ok_spec :
    ∀ (l : List JFields) (a b : List Json) (c : List Int),
      gather l = .ok (a, b, c) →
      a = l.flatMap record_missing ∧ c = l.filterMap record_pct := by
  intro l
  induction l with
  | nil =>
    intro a b c hg
    simp only [gather, Except.ok.injEq, Prod.mk.injEq] at hg
    obtain ⟨ha, _, hc⟩ := hg
    exact ⟨by simp [← ha], by simp [← hc]⟩
  | cons fs rest ih =>
    intro a b c hg
    unfold gather at hg
    split at hg <;> try exact Except.noConfusion hg
    rename_i sg hsg
    split at hg <;> try exact Except.noConfusion hg
    rename_i miss mat hmiss hmat
    split at hg <;> try exact Except.noConfusion hg
    rename_i jma hjma
    split at hg <;> try exact Except.noConfusion hg
    rename_i out m1 m2 ps hrest
    simp only [Except.ok.injEq, Prod.mk.injEq] at hg
    obtain ⟨ha, _, hc⟩ := hg
    obtain ⟨ihm, ihp⟩ := ih m1 m2 ps hrest
    have hrm : record_missing fs = miss := by
      unfold record_missing
      rw [hsg]
      dsimp only
      rw [hmiss]
    have hrp : record_pct fs = parse_pct (jgetD jma "overall_match_percentage" (.str "")) := by
      unfold record_pct
      rw [hjma]
    constructor
    · rw [← ha, List.flatMap_cons, hrm, ihm]
    · rw [← hc, List.filterMap_cons, hrp, ihp]
      cases hp : parse_pct (jgetD jma "overall_match_percentage" (Json.str "")) <;> rfl

/-- Shape of the emitted report in the successful case. -/
theorem report_fields (analyses : List JFields) (miss mat : List Json)
    (pcts : List Int) (steps : List String)
    (hne : analyses ≠ [])
    (hg : gather analyses = .ok (miss, mat, pcts))
    (hsteps : next_steps_of ((most_common 10 miss).take 5) (avg_of pcts) = .ok steps) :
    generate_overall_report analyses = .report {
      total_jobs_analyzed := analyses.length
      average_match_percentage := fmt_1f_pct (avg_of pcts)
      most_common_missing_skills := (most_common 10 miss).map (fun kv => kv.1)
      strongest_skills := (most_common 10 mat).map (fun kv => kv.1)
      top_skills_to_develop := ((most_common 10 miss).take 5).map (fun kv => kv.1)
      career_readiness := readiness_of_avg (avg_of pcts)
      next_steps := steps
      job_analyses := analyses } := by
  unfold generate_overall_report
  rw [if_neg (by simpa using hne), hg]
  dsimp only
  rw [hsteps]

/-- Rounding an integer-valued rational changes nothing. -/
theorem round_half_even_intCast (n : Int) : round_half_even (n : ℚ) = n := by
  unfold round_half_even
  rw [Int.floor_intCast]
  norm_num

/-- One-decimal formatting of the exact average 70. -/
theorem fmt_70 : fmt_1f_pct 70 = "70.0%" := by
  unfold fmt_1f_pct
  rw [show ((70 : ℚ) * 10) = ((700 : Int) : ℚ) by norm_num, round_half_even_intCast]
  decide

/-- One-decimal formatting of the exact average 60. -/
theorem fmt_60 : fmt_1f_pct 60 = "60.0%" := by
  unfold fmt_1f_pct
  rw [show ((60 : ℚ) * 10) = ((600 : Int) : ℚ) by norm_num, round_half_even_intCast]
  decide

/-- C7 (amended): for every non-empty record list that aggregates cleanly,
the report averages exactly the overall-match values that parse (a plain
integer/float — or bool, which Python counts as an int — or a string
containing a percent sign whose remainder parses as an integer); the
divisor is the count of parseable values, the average is 0 when none
parses, the average is formatted as a one-decimal percentage string, and
readiness is classified by strict thresholds: average > 70 → "good",
50 < average ≤ 70 → "needs_improvement", average ≤ 50 →
"significant_gaps". -/
theorem report_average_and_readiness (analyses : List JFields)
    (miss mat : List Json) (pcts : List Int) (steps : List String)
    (hne : analyses ≠ [])
    (hg : gather analyses = .ok (miss, mat, pcts))
    (hsteps : next_steps_of ((most_common 10 miss).take 5) (avg_of pcts) = .ok steps) :
    pcts = analyses.filterMap record_pct ∧
    (pcts = [] → avg_of pcts = 0) ∧
    avg_of pcts = (if pcts.isEmpty then 0
      else (pcts.map (fun n => (n : ℚ))).sum / (pcts.length : ℚ)) ∧
    avg_str_of (generate_overall_report analyses) = fmt_1f_pct (avg_of pcts) ∧
    readiness_of (generate_overall_report analyses) = readiness_of_avg (avg_of pcts) ∧
    (70 < avg_of pcts → readiness_of_avg (avg_of pcts) = "good") ∧
    (50 < avg_of pcts → avg_of pcts ≤ 70 →
      readiness_of_avg (avg_of pcts) = "needs_improvement") ∧
    (avg_of pcts ≤ 50 → readiness_of_avg (avg_of pcts) = "significant_gaps") := by
  have hrep := report_fields analyses miss mat pcts steps hne hg hsteps
  refine ⟨(gather_ok_spec analyses miss mat pcts hg).2, ?_, rfl, ?_, ?_, ?_, ?_, ?_⟩
  · intro h; rw [h]; rfl
  · rw [hrep]; rfl
  · rw [hrep]; rfl
  · intro h
    unfold readiness_of_avg
    rw [if_pos h]
  · intro h1 h2
    unfold readiness_of_avg
    rw [if_neg (by exact not_lt.mpr h2), if_pos h1]
  · intro h
    unfold readiness_of_avg
    rw [if_neg (by exact not_lt.mpr (le_trans h (by norm_num))),
      if_neg (by exact not_lt.mpr h)]

/-- C7 (counterexample): a single record with overall match "70%" averages
exactly 70, which the claim (average ≥ 70) classifies "good", but the code
uses a strict comparison and reports "needs_improvement". -/
theorem report_boundary_70_not_good :
    avg_str_of (generate_overall_report [pct_record "70%"]) = "70.0%" ∧
    readiness_of (generate_overall_report [pct_record "70%"]) = "needs_improvement" ∧
    ("needs_improvement" : String) ≠ "good" := by
  have hg : gather [pct_record "70%"] = .ok ([], [], [70]) := rfl
  have hav : avg_of [70] = 70 := by
    unfold avg_of
    norm_num
  have hrep := report_fields [pct_record "70%"] [] [] [70] _ (by simp) hg rfl
  refine ⟨?_, ?_, by decide⟩
  · rw [hrep]
    show fmt_1f_pct (avg_of [70]) = _
    rw [hav, fmt_70]
  · rw [hrep]
    show readiness_of_avg (avg_of [70]) = _
    rw [hav]
    unfold readiness_of_avg
    norm_num

/-- C7 witness: match percentages [80, 60, 40] aggregate to exactly the
parseable list [80, 60, 40], average "60.0%", readiness
"needs_improvement" — the amended theorem applied at this input. -/
theorem report_average_and_readiness_witness :
    [80, 60, 40] =
      ([pct_record "80%", pct_record "60%", pct_record "40%"].filterMap record_pct
        : List Int) ∧
    avg_str_of (generate_overall_report
      [pct_record "80%", pct_record "60%", pct_record "40%"]) = "60.0%" ∧
    readiness_of (generate_overall_report
      [pct_record "80%", pct_record "60%", pct_record "40%"]) = "needs_improvement" := by
  have hg : gather [pct_record "80%", pct_record "60%", pct_record "40%"] =
      .ok ([], [], [80, 60, 40]) := rfl
  have h := report_average_and_readiness
    [pct_record "80%", pct_record "60%", pct_record "40%"] [] [] [80, 60, 40] _
    (by simp) hg rfl
  have hav : avg_of [80, 60, 40] = 60 := by
    unfold avg_of
    norm_num
  refine ⟨h.1, ?_, ?_⟩
  · rw [h.2.2.2.1, hav, fmt_60]
  · rw [h.2.2.2.2.1, hav]
    unfold readiness_of_avg
    norm_num

/-- Unfolding equation: the tally of a cons cell. -/
theorem tally_cons (y : Json) (ys : List Json) :
    tally (y :: ys) = (y, 1 + ys.count y) :: erase_key y (tally ys) := rfl

/-- Erasing one key leaves lookups of other keys unchanged. -/
theorem lookup_count_erase_ne (x y : Json) (h : y ≠ x) :
    ∀ t : List (Json × Nat), lookup_count (erase_key x t) y = lookup_count t y := by
  intro t
  induction t with
  | nil => rfl
  | cons kv rest ih =>
    by_cases hk : kv.1 = x
    · have h1 : erase_key x (kv :: rest) = erase_key x rest := by
        unfold erase_key
        rw [List.filter_cons, if_neg (by simp [hk])]
      have h2 : lookup_count (kv :: rest) y = lookup_count rest y := by
        show (if (kv.1 == y) = true then kv.2 else lookup_count rest y) = lookup_count rest y
        rw [if_neg (by simp only [hk, beq_iff_eq]; exact fun hh => h hh.symm)]
      rw [h1, ih, h2]
    · have h1 : erase_key x (kv :: rest) = kv :: erase_key x rest := by
        unfold erase_key
        rw [List.filter_cons, if_pos (by simp [hk])]
      rw [h1]
      show (if (kv.1 == y) = true then kv.2 else lookup_count (erase_key x rest) y) =
        (if (kv.1 == y) = true then kv.2 else lookup_count rest y)
      cases hky : kv.1 == y with
      | true => rfl
      | false =>
        rw [if_neg (by simp [hky]), if_neg (by simp [hky])]
        exact ih

/-- The tally assigns every element its multiplicity. -/
theorem lookup_count_tally (xs : List Json) (x : Json) :
    lookup_count (tally xs) x = xs.count x := by
  induction xs with
  | nil => rfl
  | cons y ys ih =>
    rw [tally_cons]
    by_cases hxy : y = x
    · subst hxy
      have h1 : lookup_count ((y, 1 + ys.count y) :: erase_key y (tally ys)) y =
          1 + ys.count y := by
        show (if (((y, 1 + ys.count y) : Json × Nat).1 == y) = true then 1 + ys.count y
          else lookup_count (erase_key y (tally ys)) y) = 1 + ys.count y
        rw [if_pos (by simp)]
      rw [h1, List.count_cons_self]
      omega
    · have h1 : lookup_count ((y, 1 + ys.count y) :: erase_key y (tally ys)) x =
          lookup_count (erase_key y (tally ys)) x := by
        show (if (((y, 1 + ys.count y) : Json × Nat).1 == x) = true then 1 + ys.count y
          else lookup_count (erase_key y (tally ys)) x) =
          lookup_count (erase_key y (tally ys)) x
        rw [if_neg (by simp [hxy])]
      rw [h1, lookup_count_erase_ne y x (fun hh => hxy hh.symm) (tally ys), ih,
        List.count_cons_of_ne (fun hh => hxy hh.symm)]

/-- Every element occurs in the tally, paired with its multiplicity. -/
theorem tally_mem (xs : List Json) (x : Json) (hx : x ∈ xs) :
    (x, xs.count x) ∈ tally xs := by
  induction xs with
  | nil => cases hx
  | cons y ys ih =>
    rw [tally_cons]
    by_cases hxy : y = x
    · subst hxy
      have hc : List.count y (y :: ys) = 1 + List.count y ys := by
        rw [List.count_cons_self]
        omega
      rw [hc]
      exact List.mem_cons_self _ _
    · rcases List.mem_cons.mp hx with h | h
      · exact absurd h.symm hxy
      · rw [List.count_cons_of_ne (fun hh => hxy hh.symm)]
        refine List.mem_cons_of_mem _ ?_
        unfold erase_key
        rw [List.mem_filter]
        refine ⟨ih h, ?_⟩
        simp only [Bool.not_eq_true', beq_eq_false_iff_ne, ne_eq]
        exact fun hh => hxy hh.symm

/-- An element whose count is among the ten most frequent (fewer than
eleven tally entries reach its count) survives the sort-and-truncate of
`most_common 10`. -/
theorem mem_most_common_of_few_geq (xs : List Json) (x : Json) (hx : x ∈ xs)
    (hfew : ((tally xs).filter (fun kv => xs.count x ≤ kv.2)).length ≤ 10) :
    (x, xs.count x) ∈ most_common 10 xs := by
  haveI : IsTotal (Json × Nat) (fun a b => b.2 ≤ a.2) := ⟨fun a b => le_total b.2 a.2⟩
  haveI : IsTrans (Json × Nat) (fun a b => b.2 ≤ a.2) :=
    ⟨fun _ _ _ hab hbc => le_trans hbc hab⟩
  unfold most_common
  set t := (tally xs).insertionSort (fun a b => b.2 ≤ a.2) with ht
  have hperm : t.Perm (tally xs) := List.perm_insertionSort _ _
  have hsorted : List.Sorted (fun a b : Json × Nat => b.2 ≤ a.2) t :=
    List.sorted_insertionSort _ _
  have hmem : (x, xs.count x) ∈ t := hperm.mem_iff.mpr (tally_mem xs x hx)
  by_contra hnot
  have hdrop : (x, xs.count x) ∈ t.drop 10 := by
    have := List.take_append_drop 10 t
    rcases List.mem_append.mp (by rw [this]; exact hmem) with h | h
    · exact absurd h hnot
    · exact h
  have hcross : ∀ a ∈ t.take 10, xs.count x ≤ a.2 := by
    have hp : List.Pairwise (fun a b : Json × Nat => b.2 ≤ a.2) (t.take 10 ++ t.drop 10) := by
      rw [List.take_append_drop]
      exact hsorted
    intro a ha
    exact (List.pairwise_append.mp hp).2.2 a ha _ hdrop
  have hlen : 10 < t.length := by
    by_contra hle
    push_neg at hle
    rw [List.drop_eq_nil_of_le hle] at hdrop
    cases hdrop
  have hfilter_take : (t.take 10).filter (fun kv => xs.count x ≤ kv.2) = t.take 10 :=
    List.filter_eq_self.mpr (fun a ha => by simpa using hcross a ha)
  have hged : 1 ≤ ((t.drop 10).filter (fun kv => xs.count x ≤ kv.2)).length := by
    have hm : (x, xs.count x) ∈ (t.drop 10).filter (fun kv => xs.count x ≤ kv.2) :=
      List.mem_filter.mpr ⟨hdrop, by simp⟩
    exact List.length_pos.mpr (List.ne_nil_of_mem hm)
  have hsum : 11 ≤ (t.filter (fun kv => xs.count x ≤ kv.2)).length := by
    have hsplit : t.filter (fun kv => xs.count x ≤ kv.2) =
        (t.take 10).filter (fun kv => xs.count x ≤ kv.2) ++
          (t.drop 10).filter (fun kv => xs.count x ≤ kv.2) := by
      rw [← List.filter_append, List.take_append_drop]
    rw [hsplit, List.length_append, hfilter_take, List.length_take]
    omega
  have hpermf : (t.filter (fun kv => xs.count x ≤ kv.2)).length =
      ((tally xs).filter (fun kv => xs.count x ≤ kv.2)).length :=
    (hperm.filter _).length_eq
  omega

/-- C10: the aggregation treats the fallback placeholder as a real skill —
whenever some record in the list is a fallback record (its missing-skill
list holds the literal placeholder string, which is exactly what
`_create_fallback_analysis` emits), the placeholder is counted in the
missing-skill frequency tally with its full multiplicity, and it appears in
the report's `most_common_missing_skills` whenever its count places it among
the ten most frequent entries (at most ten tally entries reach its count). -/
theorem fallback_placeholder_counted (analyses : List JFields)
    (miss mat : List Json) (pcts : List Int) (fs : JFields) (r : Report)
    (hg : gather analyses = .ok (miss, mat, pcts))
    (hmem : fs ∈ analyses)
    (hfb : Json.str failMsg ∈ record_missing fs)
    (hr : generate_overall_report analyses = .report r) :
    1 ≤ lookup_count (tally miss) (.str failMsg) ∧
    (((tally miss).filter
        (fun kv => miss.count (Json.str failMsg) ≤ kv.2)).length ≤ 10 →
      Json.str failMsg ∈ r.most_common_missing_skills) ∧
    (∀ resume job err, record_missing (fallback_analysis resume job err) =
      [.str failMsg]) := by
  have hmiss : Json.str failMsg ∈ miss := by
    rw [(gather_ok_spec analyses miss mat pcts hg).1]
    exact List.mem_flatMap.mpr ⟨fs, hmem, hfb⟩
  have hrfields : r.most_common_missing_skills =
      (most_common 10 miss).map (fun kv => kv.1) := by
    unfold generate_overall_report at hr
    rw [if_neg (by simp [List.ne_nil_of_mem hmem]), hg] at hr
    dsimp only at hr
    split at hr
    · exact ReportOutcome.noConfusion hr
    · rw [← ReportOutcome.report.inj hr]
  refine ⟨?_, ?_, ?_⟩
  · rw [lookup_count_tally]
    exact List.count_pos_iff.mpr hmiss
  · intro hfew
    rw [hrfields]
    exact List.mem_map.mpr
      ⟨(Json.str failMsg, miss.count (Json.str failMsg)),
        mem_most_common_of_few_geq miss (Json.str failMsg) hmiss hfew, rfl⟩
  · intro resume job err
    rfl

/-- C10 witness: the report over a single fallback record counts the
placeholder once and surfaces it in most_common_missing_skills. -/
theorem fallback_placeholder_counted_witness :
    1 ≤ lookup_count (tally [Json.str failMsg]) (.str failMsg) ∧
    Json.str failMsg ∈ missing_skills_of
      (generate_overall_report [fallback_analysis resumeW jobW1 "boom"]) ∧
    record_missing (fallback_analysis resumeW jobW1 "boom") = [.str failMsg] := by
  have hg : gather [fallback_analysis resumeW jobW1 "boom"] =
      .ok ([.str failMsg], [.str "Python", .str "SQL"], []) := by rfl
  have hr := report_fields [fallback_analysis resumeW jobW1 "boom"]
    [.str failMsg] [.str "Python", .str "SQL"] [] _ (by simp) hg rfl
  have h := fallback_placeholder_counted [fallback_analysis resumeW jobW1 "boom"]
    [.str failMsg] [.str "Python", .str "SQL"] [] (fallback_analysis resumeW jobW1 "boom")
    _ hg (List.mem_cons_self _ _) (by decide) hr
  refine ⟨h.1, ?_, h.2.2 resumeW jobW1 "boom"⟩
  have hm := h.2.1 (by decide)
  rw [hr]
  exact hm
